import Mathlib

/-!
Verification development for the itinerary parsing core (`api/parse.py`).

Strings are modelled as `List Char` (`Tok`). Character classes follow the
ASCII reading of the Python regexes. Each definition mirrors the homonymous
Python function; record dictionaries with the fixed 21-key schema are
modelled as the structure `FlightRecord` (empty list = empty string = absent).
-/

set_option maxRecDepth 10000

abbrev Tok := List Char

/-- Whitespace characters recognised by `str.split` / `\s` (ASCII subset). -/
def isWsC (c : Char) : Bool :=
  c.toNat = 32 || c.toNat = 9 || c.toNat = 10 || c.toNat = 11 || c.toNat = 12 || c.toNat = 13

/-- `\d` (ASCII). -/
def isDigitC (c : Char) : Bool := 48 ≤ c.toNat && c.toNat ≤ 57

/-- `[A-Z]`. -/
def isUpperC (c : Char) : Bool := 65 ≤ c.toNat && c.toNat ≤ 90

/-- `[a-zA-Z]`. -/
def isAlphaC (c : Char) : Bool := isUpperC c || (97 ≤ c.toNat && c.toNat ≤ 122)

/-- `\w` (ASCII), used for the word boundaries of the day-header regex. -/
def isWordC (c : Char) : Bool := isAlphaC c || isDigitC c || c == '_'

/-- Python `line.split()`: split on whitespace runs, dropping empty pieces. -/
def splitWsAux : Tok → Tok → List Tok
  | acc, [] => if acc.isEmpty then [] else [acc.reverse]
  | acc, c :: cs =>
    if isWsC c then
      (if acc.isEmpty then splitWsAux [] cs else acc.reverse :: splitWsAux [] cs)
    else splitWsAux (c :: acc) cs

def splitWs (cs : Tok) : List Tok := splitWsAux [] cs

/-- Python `line.strip()`. -/
def stripTok (cs : Tok) : Tok := ((cs.dropWhile isWsC).reverse.dropWhile isWsC).reverse

/-- `int(token)` for an all-digit token. -/
def toNatDigits (t : Tok) : Nat := t.foldl (fun n c => n * 10 + (c.toNat - 48)) 0

/-- `ItineraryParser.is_airport`: `^[A-Z]{3}$`. -/
def isAirport (t : Tok) : Bool := t.length = 3 && t.all isUpperC

/-- `ItineraryParser.is_time`: 1-4 digits with value ≤ 2359. -/
def isTime (t : Tok) : Bool :=
  !t.isEmpty && t.length ≤ 4 && t.all isDigitC && toNatDigits t ≤ 2359

/-- `ItineraryParser.is_date`: `^\d{6}$` with month 1-12 (chars 2-3) and day 1-31 (chars 4-5). -/
def isDate (t : Tok) : Bool :=
  t.length = 6 && t.all isDigitC &&
    (let mm := toNatDigits ((t.drop 2).take 2)
     let dd := toNatDigits (t.drop 4)
     1 ≤ mm && mm ≤ 12 && 1 ≤ dd && dd ≤ 31)

/-- `ItineraryParser.is_frequency`: `^[0-8]$` or one of `10`..`14`. -/
def isFrequency (t : Tok) : Bool :=
  match t with
  | [c] => 48 ≤ c.toNat && c.toNat ≤ 56
  | _ => t == ['1', '0'] || t == ['1', '1'] || t == ['1', '2'] || t == ['1', '3'] || t == ['1', '4']

/-- `^(\d+)([A-Z]{3})$` (vuelo-step concatenation): maximal digit run then exactly 3 uppercase. -/
def concatSplitAny (t : Tok) : Option (Tok × Tok) :=
  let d := t.takeWhile isDigitC
  let r := t.dropWhile isDigitC
  if !d.isEmpty && isAirport r then some (d, r) else none

/-- `^(\d{1,4})([A-Z]{3})$` split into its parts. -/
def concatSplit14 (t : Tok) : Option (Tok × Tok) :=
  let d := t.takeWhile isDigitC
  let r := t.dropWhile isDigitC
  if 1 ≤ d.length && d.length ≤ 4 && isAirport r then some (d, r) else none

/-- `^(\d{1,4})([A-Z]{3})$` as a predicate (airport counting in the boundary scan). -/
def isConcat14 (t : Tok) : Bool := (concatSplit14 t).isSome

/-- `^\d+$`. -/
def isNumTok (t : Tok) : Bool := !t.isEmpty && t.all isDigitC

/-- `^\d{1,4}$` (table-row time cells; no 2359 bound there). -/
def isTime14 (t : Tok) : Bool := !t.isEmpty && t.length ≤ 4 && t.all isDigitC

/-- The lookahead of `_find_section_boundary`: number of frequency tokens in the
maximal contiguous run of frequency-or-date tokens at the head of the list. -/
def freqRunCount : List Tok → Nat
  | [] => 0
  | t :: ts => if isFrequency t then freqRunCount ts + 1 else if isDate t then freqRunCount ts else 0

/-- `ItineraryParser._find_section_boundary`, scanning the remaining token
suffix `tokens[i..]` at index `i` with `count` airports seen so far in
`tokens[start..i)`; when the suffix is exhausted, `i = len(tokens)` is
returned. -/
def findSectionBoundaryAux (start : Nat) : List Tok → Nat → Nat → Nat
  | [], i, _ => i
  | t :: rest, i, count =>
    let c' := if isAirport t || isConcat14 t then count + 1 else count
    if isFrequency t && decide (2 ≤ c') &&
        (decide (i = start) || decide (2 ≤ freqRunCount (t :: rest))) then i
    else if isDate t && decide (2 ≤ c') then i
    else findSectionBoundaryAux start rest (i + 1) c'

/-- `ItineraryParser._find_section_boundary(tokens, start_idx)` (when the scan
never starts because `start_idx` is already past the end, the Python loop
returns `len(tokens)` at once). -/
def findSectionBoundary (tokens : List Tok) (start : Nat) : Nat :=
  if tokens.length ≤ start then tokens.length
  else findSectionBoundaryAux start (tokens.drop start) start 0

/-- Pre-processing of flight tokens: split `time+airport` concatenations
(`"1030MAD"` → `"1030" "MAD"`) when the digit part is a valid time value. -/
def expandTokens : List Tok → List Tok
  | [] => []
  | t :: ts =>
    match concatSplit14 t with
    | some (d, a) => if toNatDigits d ≤ 2359 then d :: a :: expandTokens ts else t :: expandTokens ts
    | none => t :: expandTokens ts

/-- The segment walk: an airport token opens a segment that greedily consumes
following time tokens. Fueled for structural recursion; the fuel (the list
length) is always sufficient since every step consumes at least one token. -/
def collectSegmentsF : Nat → List Tok → List (Tok × List Tok)
  | 0, _ => []
  | _ + 1, [] => []
  | fuel + 1, t :: ts =>
    if isAirport t then (t, ts.takeWhile isTime) :: collectSegmentsF fuel (ts.dropWhile isTime)
    else collectSegmentsF fuel ts

def collectSegments (l : List Tok) : List (Tok × List Tok) := collectSegmentsF l.length l

/-- The 21-key output schema, in the order both parsers build their dicts. -/
structure FlightRecord where
  status : Tok := []
  vuelo : Tok := []
  origen : Tok := []
  salida1 : Tok := []
  escala1 : Tok := []
  llegada1 : Tok := []
  salida2 : Tok := []
  escala2 : Tok := []
  llegada2 : Tok := []
  salida3 : Tok := []
  destino : Tok := []
  llegada3 : Tok := []
  lun : Tok := []
  mar : Tok := []
  mie : Tok := []
  jue : Tok := []
  vie : Tok := []
  sab : Tok := []
  dom : Tok := []
  fechaInicio : Tok := []
  fechaFin : Tok := []
deriving DecidableEq, Repr, Inhabited

/-- `COLUMN_NAMES` (also the key order of both result dicts). -/
def COLUMN_NAMES : List String :=
  ["status", "vuelo", "origen", "salida1", "escala1", "llegada1",
   "salida2", "escala2", "llegada2", "salida3", "destino", "llegada3",
   "lun", "mar", "mie", "jue", "vie", "sab", "dom",
   "fechaInicio", "fechaFin"]

/-- The record as an ordered key/value dictionary. -/
def FlightRecord.toPairs (r : FlightRecord) : List (String × Tok) :=
  [("status", r.status), ("vuelo", r.vuelo), ("origen", r.origen),
   ("salida1", r.salida1), ("escala1", r.escala1), ("llegada1", r.llegada1),
   ("salida2", r.salida2), ("escala2", r.escala2), ("llegada2", r.llegada2),
   ("salida3", r.salida3), ("destino", r.destino), ("llegada3", r.llegada3),
   ("lun", r.lun), ("mar", r.mar), ("mie", r.mie), ("jue", r.jue),
   ("vie", r.vie), ("sab", r.sab), ("dom", r.dom),
   ("fechaInicio", r.fechaInicio), ("fechaFin", r.fechaFin)]

/-- The seven weekday fields, in `day_fields` order. -/
def FlightRecord.days (r : FlightRecord) : List Tok :=
  [r.lun, r.mar, r.mie, r.jue, r.vie, r.sab, r.dom]

/-- `result[day_fields[i]] = c` (indices 0..6 are lun..dom). -/
def setDayIdx (r : FlightRecord) (i : Nat) (c : Tok) : FlightRecord :=
  if i = 0 then { r with lun := c }
  else if i = 1 then { r with mar := c }
  else if i = 2 then { r with mie := c }
  else if i = 3 then { r with jue := c }
  else if i = 4 then { r with vie := c }
  else if i = 5 then { r with sab := c }
  else if i = 6 then { r with dom := c }
  else r

/-- The 7-codes branch of the day assignment: left-to-right from index `i`. -/
def writeDays7 (r : FlightRecord) (i : Nat) : List Tok → FlightRecord
  | [] => r
  | c :: cs => writeDays7 (if !c.isEmpty && c != ['-'] then setDayIdx r i c else r) (i + 1) cs

/-- The right-aligned branch: `day_idx = start_idx + i` with the `0 ≤ day_idx < 7` guard. -/
def writeDaysAligned (r : FlightRecord) (d : Int) : List Tok → FlightRecord
  | [] => r
  | c :: cs =>
    writeDaysAligned
      (if decide (0 ≤ d) && decide (d < 7) && !c.isEmpty && c != ['-']
       then setDayIdx r d.toNat c else r) (d + 1) cs

/-- Day-code assignment of `parse_line`: exactly 7 codes are assigned in order,
1-6 codes are right-aligned towards Sunday. -/
def assignDays (r : FlightRecord) (codes : List Tok) : FlightRecord :=
  if codes.length = 7 then writeDays7 r 0 codes
  else if 0 < codes.length then writeDaysAligned r (7 - (codes.length : Int)) codes
  else r

/-- Up to two collected dates go to `fechaInicio` then `fechaFin`. -/
def assignDates (r : FlightRecord) : List Tok → FlightRecord
  | [] => r
  | [d1] => { r with fechaInicio := d1 }
  | d1 :: d2 :: _ => { r with fechaInicio := d1, fechaFin := d2 }

/-- The day window of `parse_line`: the up-to-7 tokens right before the first
date, or the last up-to-7 remaining tokens when no date occurs. -/
def dayWindow (remaining : List Tok) : List Tok :=
  match remaining.findIdx? isDate with
  | some f => let s := f - 7; (remaining.drop s).take (f - s)
  | none => if 7 ≤ remaining.length then remaining.drop (remaining.length - 7) else remaining

/-- `valid_day_codes`: the frequency codes inside the day window. -/
def validCodes (w : List Tok) : List Tok := w.filter isFrequency

/-- Segment-to-field mapping of `parse_line` (origen, escala1, escala2, destino). -/
def assignSegs (r : FlightRecord) : List (Tok × List Tok) → FlightRecord
  | [] => r
  | (a0, t0) :: rest0 =>
    let r1 := { r with origen := a0 }
    let r2 := match t0 with | x :: _ => { r1 with salida1 := x } | [] => r1
    match rest0 with
    | [] => r2
    | (a1, t1) :: rest1 =>
      let r3 := { r2 with escala1 := a1 }
      let r4 := match t1 with
        | [] => r3
        | [x] => { r3 with llegada1 := x }
        | x :: y :: _ => { r3 with llegada1 := x, salida2 := y }
      match rest1 with
      | [] => r4
      | (a2, t2) :: rest2 =>
        let r5 := { r4 with escala2 := a2 }
        let r6 := match t2 with
          | [] => r5
          | [x] => { r5 with llegada2 := x }
          | x :: y :: _ => { r5 with llegada2 := x, salida3 := y }
        match rest2 with
        | [] => r6
        | (a3, t3) :: _ =>
          let r7 := { r6 with destino := a3 }
          match t3 with | x :: _ => { r7 with llegada3 := x } | [] => r7

/-- The single-segment fix: if exactly one segment was found, search the
post-boundary tokens for a stray airport and use it as `escala1`, taking the
time right before it (if any) as `llegada1`. -/
def singleSegFix (r : FlightRecord) (nSegs : Nat) (remaining : List Tok) : FlightRecord :=
  if nSegs = 1 && !r.origen.isEmpty then
    match remaining.findIdx? isAirport with
    | some i =>
      let r1 := { r with escala1 := remaining.getD i [] }
      if 0 < i && isTime (remaining.getD (i - 1) []) then
        { r1 with llegada1 := remaining.getD (i - 1) [] }
      else r1
    | none => r
  else r

/-- Steps 3-21 of `parse_line` after the vuelo token: boundary, segments,
single-segment fix, day codes, dates. `suff` is the token suffix from the
(re-inserted) airport onwards, so the boundary scan starts at relative index 0. -/
def buildRecord (st vuelo : Tok) (suff : List Tok) : FlightRecord :=
  let b := findSectionBoundary suff 0
  let flight := suff.take b
  let remaining := suff.drop b
  let segs := collectSegments (expandTokens flight)
  let r0 : FlightRecord := { status := st, vuelo := vuelo }
  let r1 := assignSegs r0 segs
  let r2 := singleSegFix r1 segs.length remaining
  let r3 := assignDays r2 (validCodes (dayWindow remaining))
  assignDates r3 (remaining.filter isDate)

/-- Steps 1-2 of `parse_line`: status token, then the vuelo token in either
its separated (`"1"`) or concatenated (`"1MEX"`) form; on the concatenated
form the airport is re-inserted as a pseudo-token. Returns (status, vuelo,
token suffix after the vuelo digits). -/
def preamble (tokens : List Tok) : Option (Tok × Tok × List Tok) :=
  match tokens with
  | [] => none
  | t :: ts =>
    let sp := if t == ['A'] || t == ['C'] || t == ['-']
      then ((if t == ['-'] then ([] : Tok) else t), ts)
      else (([] : Tok), t :: ts)
    match sp.2 with
    | [] => none
    | v :: vs =>
      if isNumTok v then (if vs.isEmpty then none else some (sp.1, v, vs))
      else
        match concatSplitAny v with
        | some (d, abc) => some (sp.1, d, abc :: vs)
        | none => none

/-- `ItineraryParser.parse_line` on an already split token list. -/
def parseTokens (tokens : List Tok) : Option FlightRecord :=
  if tokens.length < 4 then none
  else (preamble tokens).map fun (st, v, suff) => buildRecord st v suff

/-- `ItineraryParser.parse_line`. -/
def parseLine (line : Tok) : Option FlightRecord := parseTokens (splitWs line)

/-- The day codes a line feeds into the day assignment (token-count strategy). -/
def lineDayCodes (line : Tok) : List Tok :=
  match preamble (splitWs line) with
  | some (_, _, suff) => validCodes (dayWindow (suff.drop (findSectionBoundary suff 0)))
  | none => []

/-- `text.split('\n')` (keeps empty pieces). -/
def splitNl : Tok → List Tok
  | [] => [[]]
  | c :: cs =>
    if c == '\n' then [] :: splitNl cs
    else match splitNl cs with
      | t :: ts => (c :: t) :: ts
      | [] => [[c]]

def startsWithTok : Tok → Tok → Bool
  | _, [] => true
  | [], _ :: _ => false
  | c :: cs, p :: ps => c == p && startsWithTok cs ps

/-- Python `pat in hay` (substring containment). -/
def containsTok : Tok → Tok → Bool
  | [], pat => pat.isEmpty
  | c :: t, pat => startsWithTok (c :: t) pat || containsTok t pat

/-- The skip patterns of `parse_text`. -/
def skipPatterns : List Tok :=
  ["S VLO".data, "EFECTIVIDAD".data, "ITINERARIOS".data, "Emisión".data,
   "EMISIÓN".data, "UTC".data, "Notas:".data, "información".data]

/-- The part of the flight-line regex after the optional status character:
`\s*\d+\s*[A-Z]{3}\s+\d+` as a deterministic matcher. -/
def matchFlightTail (s2 : Tok) : Bool :=
  let s3 := s2.dropWhile isWsC
  let ds := s3.takeWhile isDigitC
  let s4 := s3.dropWhile isDigitC
  if ds.isEmpty then false
  else
    let s5 := s4.dropWhile isWsC
    match s5 with
    | a :: b :: c :: rest =>
      if isUpperC a && isUpperC b && isUpperC c then
        match rest with
        | w :: rest2 =>
          if isWsC w then
            match rest2.dropWhile isWsC with
            | d :: _ => isDigitC d
            | [] => false
          else false
        | [] => false
      else false
    | _ => false

/-- `re.match(r'^\s*[AC\-]?\s*\d+\s*[A-Z]{3}\s+\d+', line)`: the flight-line
shape filter of `parse_text`, as a deterministic matcher (every quantifier in
the pattern is followed by a token of a disjoint character class, so greedy
matching without backtracking is equivalent). -/
def matchFlightStart (s : Tok) : Bool :=
  let s1 := s.dropWhile isWsC
  let s2 := match s1 with
    | c :: cs => if c == 'A' || c == 'C' || c == '-' then cs else s1
    | [] => s1
  matchFlightTail s2

/-- One step of `_calibrate_day_columns`: case-sensitive `X\s+` expecting `c`. -/
def expectWsThen (c : Char) (cs : Tok) : Option Tok :=
  let w := cs.takeWhile isWsC
  let r := cs.dropWhile isWsC
  if w.isEmpty then none
  else match r with
    | x :: xs => if x == c then some xs else none
    | [] => none

/-- After a matched `L`: `\s+M\s+M\s+J\s+V\s+S\s+D`. -/
def dayHeaderTail (cs : Tok) : Option Tok :=
  (((((expectWsThen 'M' cs).bind (expectWsThen 'M')).bind (expectWsThen 'J')).bind
    (expectWsThen 'V')).bind (expectWsThen 'S')).bind (expectWsThen 'D')

/-- `re.search(r'\bL\s+M\s+M\s+J\s+V\s+S\s+D\b', line)`; `prevWord` tracks the
word-character status of the previous character for the leading boundary. -/
def hasDayHeaderAux : Bool → Tok → Bool
  | _, [] => false
  | prevWord, c :: cs =>
    (if c == 'L' && !prevWord then
        match dayHeaderTail cs with
        | some [] => true
        | some (x :: _) => !isWordC x
        | none => false
      else false)
    || hasDayHeaderAux (isWordC c) cs

def hasDayHeader (line : Tok) : Bool := hasDayHeaderAux false line

/-- `line.find(c, idx)`. -/
def findCharFrom (line : Tok) (c : Char) (idx : Nat) : Option Nat :=
  ((line.drop idx).findIdx? (fun x => x == c)).map (fun j => idx + j)

/-- The position-recording loop of `_calibrate_day_columns` over the day
letters `L M M J V S D`, advancing the search start past each match. -/
def headerPositions (line : Tok) : List (Option Nat) :=
  ((['L', 'M', 'M', 'J', 'V', 'S', 'D'].foldl
    (fun (acc : List (Option Nat) × Nat) c =>
      match findCharFrom line c acc.2 with
      | some p => (acc.1 ++ [some p], p + 1)
      | none => (acc.1 ++ [none], acc.2))
    ([], 0))).1

/-- `ItineraryParser._calibrate_day_columns`: the recorded `day_column_positions`. -/
def calibrateDayColumns (lines : List Tok) : Option (List Nat) :=
  match lines with
  | [] => none
  | line :: rest =>
    if hasDayHeader line then
      let ps := headerPositions line
      if ps.length = 7 && ps.all (·.isSome) then some (ps.filterMap id)
      else calibrateDayColumns rest
    else calibrateDayColumns rest

/-- `day_fields` as passed to the day assigners. -/
def dayFieldNames : List String := ["lun", "mar", "mie", "jue", "vie", "sab", "dom"]

/-- The per-offset column inspection of `_assign_frequencies_by_position`:
a lone digit, or a leading `1` plus digit forming `10`..`14`. -/
def codeAtPos (line : Tok) (pos : Int) : Option Tok :=
  if pos < 0 || (line.length : Int) ≤ pos then none
  else
    let p := pos.toNat
    let ch := line.getD p ' '
    if isDigitC ch then
      let prevC := if 0 < p then line.getD (p - 1) ' ' else ' '
      let nextC := if (p : Int) < (line.length : Int) - 1 then line.getD (p + 1) ' ' else ' '
      if ch == '1' && isDigitC nextC && !isDigitC prevC then
        (if isFrequency [ch, nextC] then some [ch, nextC] else none)
      else if !isDigitC prevC && !isDigitC nextC then some [ch]
      else none
    else none

/-- The `found_codes` list of `_assign_frequencies_by_position`: for each
calibrated day offset, the first code found at offset `0`, `-1`, `+1`. -/
def positionFoundCodes (line : Tok) (positions : List Nat) : List (String × Tok) :=
  (dayFieldNames.zip positions).filterMap fun nm =>
    ((codeAtPos line (nm.2 : Int)).orElse
      (fun _ => codeAtPos line ((nm.2 : Int) - 1))).orElse
      (fun _ => codeAtPos line ((nm.2 : Int) + 1)) |>.map (fun c => (nm.1, c))

/-- `ItineraryParser._assign_frequencies_by_position` (result dict as an
ordered association list): position-based codes when their count differs from
the token-based count by at most 1, else the right-aligned token fallback. -/
def assignFrequenciesByPosition (line : Tok) (positions : List Nat) (expected : List Tok) :
    List (String × Tok) :=
  if positions.isEmpty then []
  else
    let found := positionFoundCodes line positions
    if ((found.length : Int) - (expected.length : Int)).natAbs ≤ 1 then found
    else
      expected.enum.filterMap fun ic =>
        let d : Int := 7 - (expected.length : Int) + (ic.1 : Int)
        if decide (0 ≤ d) && decide (d < 7) then some (dayFieldNames.getD d.toNat "", ic.2)
        else none

/-- The per-line filtering and parsing loop of `parse_text`. -/
def parseTextLines (lines : List Tok) : List FlightRecord :=
  lines.filterMap fun line =>
    let s := stripTok line
    if s.isEmpty || s.all (fun c => isWsC c || c == '-') then none
    else if skipPatterns.any (fun p => containsTok s p) then none
    else if s.all isDigitC && s.length ≤ 3 then none
    else if matchFlightStart s then
      match parseLine line with
      | some r => if r.vuelo.isEmpty then none else some r
      | none => none
    else none

/-- `ItineraryParser.parse_text`: calibrate the day columns from the header
(the calibrated positions are stored on the instance but never read by
`parse_line`), then filter and parse each line. -/
def parseText (text : Tok) : List FlightRecord :=
  let lines := splitNl text
  let _ := calibrateDayColumns lines
  parseTextLines lines

/-- A table cell that looks like an equipment code (`0`-`8`, `10`-`14`, or empty). -/
def tableValidCell (c : Tok) : Bool :=
  ["0", "1", "2", "3", "4", "5", "6", "7", "8", "10", "11", "12", "13", "14", ""].any
    (fun s => c == s.data)

/-- The day-cell writing loop of `parse_table_row` (skips `''`, `-1`, `-`). -/
def writeTableDays (r : FlightRecord) (i : Nat) : List Tok → FlightRecord
  | [] => r
  | c :: cs =>
    writeTableDays
      (if !c.isEmpty && c != "-1".data && c != "-".data then setDayIdx r i c else r) (i + 1) cs

/-- The vuelo/origen step of `parse_table_row`: cell matching
`^(\d+)([A-Z]{3})?$`, possibly taking the next cell as origin. Returns
`(vuelo, origen, next index)`; `none` models the `return None` on a non-empty
cell that fails the pattern. -/
def tableVueloStep (flightData : List Tok) (idx0 : Nat) : Option (Tok × Tok × Nat) :=
  if idx0 < flightData.length then
    let cell := flightData.getD idx0 []
    if cell.isEmpty then some ([], [], idx0)
    else
      let d := cell.takeWhile isDigitC
      let r := cell.dropWhile isDigitC
      if d.isEmpty then none
      else if r.isEmpty then
        if idx0 + 1 < flightData.length then some (d, flightData.getD (idx0 + 1) [], idx0 + 2)
        else some (d, [], idx0 + 1)
      else if isAirport r then some (d, r, idx0 + 1)
      else none
  else some ([], [], idx0)

/-- The validity-date step of `parse_table_row`: the two cells right after
the 7-cell day window become `fechaInicio`/`fechaFin` when 6-digit-numeric. -/
def tableDates (r : FlightRecord) (row : List Tok) (ds : Nat) : FlightRecord :=
  let r1 :=
    if ds < row.length then
      let f := row.getD ds []
      if !f.isEmpty && f.length = 6 && f.all isDigitC then { r with fechaInicio := f } else r
    else r
  if ds + 1 < row.length then
    let f := row.getD (ds + 1) []
    if !f.isEmpty && f.length = 6 && f.all isDigitC then { r1 with fechaFin := f } else r1
  else r1

/-- One positional cell consumption of `parse_table_row`'s segment walk:
take the head cell when it matches, else leave the cells untouched. -/
def consumeIf (p : Tok → Bool) (l : List Tok) : Tok × List Tok :=
  match l with
  | c :: rest => if p c then (c, rest) else ([], l)
  | [] => ([], l)

/-- The flight-data fields of `parse_table_row`: origin (when not already
taken from the vuelo cell) then salida1, escala1, llegada1, salida2, escala2,
llegada2 consumed positionally. -/
def tableFlightFields (st vuelo origen0 : Tok) (segs : List Tok) : FlightRecord :=
  let p1 := if origen0.isEmpty then consumeIf isAirport segs else (origen0, segs)
  let p2 := consumeIf isTime14 p1.2
  let p3 := consumeIf isAirport p2.2
  let p4 := consumeIf isTime14 p3.2
  let p5 := consumeIf isTime14 p4.2
  let p6 := consumeIf isAirport p5.2
  let p7 := consumeIf isTime14 p6.2
  { status := st, vuelo := vuelo, origen := p1.1, salida1 := p2.1, escala1 := p3.1,
    llegada1 := p4.1, salida2 := p5.1, escala2 := p6.1, llegada2 := p7.1 }

/-- `parse_table_row` once the day window has been located at `dayStart`
(over the already normalized row). -/
def parseTableRowCore (row : List Tok) (dayStart : Nat) : Option FlightRecord :=
  let flightData := row.take dayStart
  let sp :=
    match flightData with
    | c :: _ =>
      if c == "A".data || c == "C".data || c == "-".data || c.isEmpty
      then ((if c == "A".data || c == "C".data then c else []), 1)
      else (([] : Tok), 0)
    | [] => (([] : Tok), 0)
  match tableVueloStep flightData sp.2 with
  | none => none
  | some (vuelo, origen0, idx1) =>
    let r := tableDates
      (writeTableDays (tableFlightFields sp.1 vuelo origen0 (flightData.drop idx1)) 0
        ((row.drop dayStart).take 7))
      row (dayStart + 7)
    if !r.vuelo.isEmpty && !r.origen.isEmpty then some r else none

/-- `parse_table_row(row, day_fields)` with `day_fields = [lun..dom]`
(the only value its caller passes). -/
def parseTableRow (row : List Tok) : Option FlightRecord :=
  if row.length < 10 then none
  else
    let row := row.map stripTok
    match (List.range (row.length - 8)).find?
        (fun i => 5 ≤ ((row.drop i).take 7).countP tableValidCell) with
    | none => none
    | some dayStart => parseTableRowCore row dayStart

/-- ASCII lowercasing (`str.lower` on the letters the footer groups contain). -/
def lowerC (c : Char) : Char :=
  if 65 ≤ c.toNat && c.toNat ≤ 90 then Char.ofNat (c.toNat + 32) else c

/-- ASCII uppercasing (`str.upper`). -/
def upperC (c : Char) : Char :=
  if 97 ≤ c.toNat && c.toNat ≤ 122 then Char.ofNat (c.toNat - 32) else c

/-- `clean_spaced_numbers`: `re.sub(r'(\d)\s+(\d)', r'\1\2', text)` with
the non-overlapping left-to-right semantics of `re.sub`. Fueled for structural
recursion; the fuel (the text length) is always sufficient since every step
consumes at least one character. -/
def cleanSpacedNumbersF : Nat → Tok → Tok
  | 0, l => l
  | _ + 1, [] => []
  | fuel + 1, c :: cs =>
    if isDigitC c then
      let w := cs.takeWhile isWsC
      let r := cs.dropWhile isWsC
      if w.isEmpty then c :: cleanSpacedNumbersF fuel cs
      else
        match r with
        | d :: rest =>
          if isDigitC d then c :: d :: cleanSpacedNumbersF fuel rest
          else c :: cleanSpacedNumbersF fuel cs
        | [] => c :: cleanSpacedNumbersF fuel cs
    else c :: cleanSpacedNumbersF fuel cs

def cleanSpacedNumbers (l : Tok) : Tok := cleanSpacedNumbersF l.length l

/-- `extract_metadata` result. -/
structure DocMetadata where
  codigoEmision : Tok := []
  fechaEmision : Tok := []
  vigenciaInicio : Tok := []
  vigenciaFin : Tok := []
deriving DecidableEq, Repr, Inhabited

/-- The 7 capture groups of the footer regex. -/
structure FooterGroups where
  g1 : Tok
  g2 : Tok
  g3 : Tok
  g4 : Tok
  g5 : Tok
  g6 : Tok
  g7 : Tok
deriving DecidableEq, Repr

/-- Case-insensitive ASCII literal (pattern given lowercase). -/
def ciLit : Tok → Tok → Option Tok
  | [], cs => some cs
  | _ :: _, [] => none
  | p :: ps, c :: cs => if lowerC c == p then ciLit ps cs else none

/-- `\s+`. -/
def wsRun1 (cs : Tok) : Option Tok :=
  if (cs.takeWhile isWsC).isEmpty then none else some (cs.dropWhile isWsC)

/-- `(\d{2}/\d{2})`. -/
def matchCode (cs : Tok) : Option (Tok × Tok) :=
  match cs with
  | a :: b :: s :: c :: d :: rest =>
    if isDigitC a && isDigitC b && s == '/' && isDigitC c && isDigitC d
    then some ([a, b, s, c, d], rest) else none
  | _ => none

/-- `(\d{1,2})` followed by `\s+` in the pattern: a maximal digit run of
length 1-2 (a longer run can never satisfy the following `\s+`). -/
def numRun12 (cs : Tok) : Option (Tok × Tok) :=
  let d := cs.takeWhile isDigitC
  if 1 ≤ d.length && d.length ≤ 2 then some (d, cs.dropWhile isDigitC) else none

/-- `(\d{4})` followed by `\s+`: a maximal digit run of length exactly 4. -/
def numRunExact4 (cs : Tok) : Option (Tok × Tok) :=
  let d := cs.takeWhile isDigitC
  if d.length = 4 then some (d, cs.dropWhile isDigitC) else none

/-- Final `(\d{4})` of the pattern (nothing follows, so just 4 digits). -/
def num4Head (cs : Tok) : Option (Tok × Tok) :=
  match cs with
  | a :: b :: c :: d :: rest =>
    if isDigitC a && isDigitC b && isDigitC c && isDigitC d then some ([a, b, c, d], rest)
    else none
  | _ => none

/-- `([a-zA-Z]+)` followed by `\s+`: a maximal letter run. -/
def alphaRun1 (cs : Tok) : Option (Tok × Tok) :=
  let a := cs.takeWhile isAlphaC
  if a.isEmpty then none else some (a, cs.dropWhile isAlphaC)

/-- `[oó]` under IGNORECASE. -/
def matchOChar (cs : Tok) : Option Tok :=
  match cs with
  | c :: rest => if c == 'o' || c == 'O' || c == 'ó' || c == 'Ó' then some rest else none
  | [] => none

/-- Footer regex, first section: `Emisi[oó]n\s+(\d{2}/\d{2})\s+Del\s+`
(IGNORECASE). Returns group 1 and the rest of the input. -/
def footerStageA (cs0 : Tok) : Option (Tok × Tok) := do
  let cs ← ciLit "emisi".data cs0
  let cs ← matchOChar cs
  let cs ← ciLit "n".data cs
  let cs ← wsRun1 cs
  let (g1, cs) ← matchCode cs
  let cs ← wsRun1 cs
  let cs ← ciLit "del".data cs
  let cs ← wsRun1 cs
  pure (g1, cs)

/-- Footer regex, second section: `(\d{1,2})\s+de\s+([a-zA-Z]+)\s+(\d{4})`.
Returns groups 2-4 and the rest. -/
def footerStageB (cs0 : Tok) : Option (Tok × Tok × Tok × Tok) := do
  let (g2, cs) ← numRun12 cs0
  let cs ← wsRun1 cs
  let cs ← ciLit "de".data cs
  let cs ← wsRun1 cs
  let (g3, cs) ← alphaRun1 cs
  let cs ← wsRun1 cs
  let (g4, cs) ← numRunExact4 cs
  pure (g2, g3, g4, cs)

/-- Footer regex, last section: `\s+al\s+(\d{1,2})\s+de\s+([a-zA-Z]+)\s+(\d{4})`.
Returns groups 5-7. -/
def footerStageC (cs0 : Tok) : Option (Tok × Tok × Tok) := do
  let cs ← wsRun1 cs0
  let cs ← ciLit "al".data cs
  let cs ← wsRun1 cs
  let (g5, cs) ← numRun12 cs
  let cs ← wsRun1 cs
  let cs ← ciLit "de".data cs
  let cs ← wsRun1 cs
  let (g6, cs) ← alphaRun1 cs
  let cs ← wsRun1 cs
  let (g7, _) ← num4Head cs
  pure (g5, g6, g7)

/-- The footer regex
`Emisi[oó]n\s+(\d{2}/\d{2})\s+Del\s+(\d{1,2})\s+de\s+([a-zA-Z]+)\s+(\d{4})\s+al\s+(\d{1,2})\s+de\s+([a-zA-Z]+)\s+(\d{4})`
(IGNORECASE) anchored at the head of the input. Every quantified piece is
followed by a disjoint character class, so greedy matching without
backtracking is equivalent to the Python engine. -/
def footerAt (cs0 : Tok) : Option FooterGroups := do
  let (g1, cs) ← footerStageA cs0
  let (g2, g3, g4, cs) ← footerStageB cs
  let (g5, g6, g7) ← footerStageC cs
  pure { g1 := g1, g2 := g2, g3 := g3, g4 := g4, g5 := g5, g6 := g6, g7 := g7 }

/-- `re.search`: first position (left to right) where the footer regex matches. -/
def searchFooter : Tok → Option FooterGroups
  | [] => none
  | c :: cs =>
    match footerAt (c :: cs) with
    | some g => some g
    | none => searchFooter cs

/-- The Spanish month map of `extract_metadata`. -/
def monthMap : List (String × String) :=
  [("enero", "ENE"), ("febrero", "FEB"), ("marzo", "MAR"), ("abril", "ABR"),
   ("mayo", "MAY"), ("junio", "JUN"), ("julio", "JUL"), ("agosto", "AGO"),
   ("septiembre", "SEP"), ("octubre", "OCT"), ("noviembre", "NOV"), ("diciembre", "DIC")]

/-- `month_map.get(month.lower(), month[:3].upper())`. -/
def monthAbbrev (m : Tok) : Tok :=
  match monthMap.find? (fun p => m.map lowerC == p.1.data) with
  | some p => p.2.data
  | none => (m.take 3).map upperC

/-- `extract_metadata`. -/
def extractMetadata (text : Tok) : DocMetadata :=
  match searchFooter (cleanSpacedNumbers text) with
  | none => {}
  | some g =>
    let vi := g.g2 ++ ('-' :: monthAbbrev g.g3) ++ ('-' :: g.g4)
    let vf := g.g5 ++ ('-' :: monthAbbrev g.g6) ++ ('-' :: g.g7)
    { codigoEmision := g.g1, vigenciaInicio := vi, vigenciaFin := vf, fechaEmision := vi }

/-- A token counted as an airport by the boundary scan: a plain 3-letter
code or a 1-4-digit + 3-letter concatenation. -/
def airportTok (t : Tok) : Bool := isAirport t || isConcat14 t

/-- Airports among `tokens[start..i)` (strictly before `i`). -/
def airportsBefore (tokens : List Tok) (start i : Nat) : Nat :=
  ((tokens.drop start).take (i - start)).countP airportTok

/-- Airports among `tokens[start..i]` (through `i`). -/
def airportsThrough (tokens : List Tok) (start i : Nat) : Nat :=
  ((tokens.drop start).take (i + 1 - start)).countP airportTok

/-- Length of the contiguous run of frequency-or-date tokens at the head. -/
def fdRunLen (l : List Tok) : Nat := (l.takeWhile (fun t => isFrequency t || isDate t)).length

/-- The boundary condition exactly as claim C4 words it: (a) `tokens[i]` is a
frequency code, at least two airports occur at indices up to `i`, and at least
two more frequency-or-date tokens follow `tokens[i]` contiguously; or (b)
`tokens[i]` is a six-digit date and at least two airports occur up to `i`. -/
def boundaryCondClaim (tokens : List Tok) (start i : Nat) : Bool :=
  let t := tokens.getD i []
  (isFrequency t && decide (2 ≤ airportsThrough tokens start i) &&
      decide (2 ≤ fdRunLen (tokens.drop (i + 1)))) ||
    (isDate t && decide (2 ≤ airportsThrough tokens start i))

def boundaryClaimAux (tokens : List Tok) (start : Nat) : List Tok → Nat → Nat
  | [], i => i
  | _ :: rest, i => if boundaryCondClaim tokens start i then i else boundaryClaimAux tokens start rest (i + 1)

/-- The boundary as claim C4 describes it: the first index in `[start, len)`
satisfying `boundaryCondClaim`, else the length of the token list. -/
def boundaryClaim (tokens : List Tok) (start : Nat) : Nat :=
  if tokens.length ≤ start then tokens.length
  else boundaryClaimAux tokens start (tokens.drop start) start

/-- The boundary condition as the amended claim words it: in (a) the
contiguous run of frequency-or-date tokens starting at `tokens[i]` must
contain at least two frequency codes (`tokens[i]` itself included). -/
def boundaryCondAmended (tokens : List Tok) (start i : Nat) : Bool :=
  let t := tokens.getD i []
  (isFrequency t && decide (2 ≤ airportsThrough tokens start i) &&
      decide (2 ≤ freqRunCount (tokens.drop i))) ||
    (isDate t && decide (2 ≤ airportsThrough tokens start i))

def boundarySpecAux (tokens : List Tok) (start : Nat) : List Tok → Nat → Nat
  | [], i => i
  | _ :: rest, i => if boundaryCondAmended tokens start i then i else boundarySpecAux tokens start rest (i + 1)

/-- The boundary as the amended claim describes it: the first index in
`[start, len)` satisfying `boundaryCondAmended`, else the length. -/
def boundarySpec (tokens : List Tok) (start : Nat) : Nat :=
  if tokens.length ≤ start then tokens.length
  else boundarySpecAux tokens start (tokens.drop start) start

/-- vuelo and origen of a record (the acceptance-relevant pair). -/
def FlightRecord.vo (r : FlightRecord) : Tok × Tok := (r.vuelo, r.origen)

/-- The two validity-date fields of a record. -/
def FlightRecord.fechas (r : FlightRecord) : Tok × Tok := (r.fechaInicio, r.fechaFin)

def lineSevenCodes : Tok := "A 12 MEX 1030 JFK 1530 1 2 3 4 5 6 7 010126 150226".data

def recSevenCodes : FlightRecord :=
  { status := "A".data, vuelo := "12".data, origen := "MEX".data, salida1 := "1030".data,
    escala1 := "JFK".data, llegada1 := "1530".data,
    lun := "1".data, mar := "2".data, mie := "3".data, jue := "4".data, vie := "5".data,
    sab := "6".data, dom := "7".data, fechaInicio := "010126".data, fechaFin := "150226".data }

def emptyRecord : FlightRecord := {}

def demoHeader : Tok := "                              L M M J V S D".data

def demoFlightLine : Tok := "1 MEX 10 JFK 1130             2 3 4".data

def demoDoc : Tok := demoHeader ++ ('\n' :: demoFlightLine)

def demoPositions : List Nat := [30, 32, 34, 36, 38, 40, 42]

def demoRec : FlightRecord :=
  { vuelo := "1".data, origen := "MEX".data, salida1 := "10".data, escala1 := "JFK".data,
    llegada1 := "1130".data, vie := "2".data, sab := "3".data, dom := "4".data }

def demoBoundaryToks : List Tok := ["MEX", "JFK", "2", "3"].map String.data

def footerText : Tok :=
  "Emision 02/26 Del 26 de enero 2026 al 22 de febrero 2026".data

def doubleFooterText : Tok :=
  "Emision 01/25 Del 5 de enero 2025 al 6 de enero 2025 Emision 02/26 Del 26 de enero 2026 al 22 de febrero 2026".data

def metaClaimed : DocMetadata :=
  { codigoEmision := "02/26".data, fechaEmision := "26-ENE-2026".data,
    vigenciaInicio := "26-ENE-2026".data, vigenciaFin := "22-FEB-2026".data }

/-! Concrete demonstration inputs and their parse results, used by the
witness and counterexample theorems below. -/

def lineTooShort : Tok := "1 MEX 10".data

def lineSepShort : Tok := "1 MEX 10 JFK".data

def lineConcatShort : Tok := "1MEX 10JFK".data

def lineSepLong : Tok := "1 MEX 10 JFK 2 3".data

def lineConcatLong : Tok := "1MEX 10JFK 2 3".data

def lineThreeCodes : Tok := "1 MEX 10 JFK 2 3 4".data

def recSepShort : FlightRecord :=
  { vuelo := "1".data, origen := "MEX".data, salida1 := "10".data, escala1 := "JFK".data }

def recSepLong : FlightRecord :=
  { vuelo := "1".data, origen := "MEX".data, salida1 := "10".data, escala1 := "JFK".data,
    sab := "2".data, dom := "3".data }

def recThreeCodes : FlightRecord :=
  { vuelo := "1".data, origen := "MEX".data, salida1 := "10".data, escala1 := "JFK".data,
    vie := "2".data, sab := "3".data, dom := "4".data }

def rowDemo : List Tok :=
  ["A", "123", "MEX", "9", "9", "1", "2", "3", "4", "5", "999999", "888888"].map String.data

def recRowDemo : FlightRecord :=
  { status := "A".data, vuelo := "123".data, origen := "MEX".data,
    lun := "9".data, mar := "9".data, mie := "1".data, jue := "2".data,
    vie := "3".data, sab := "4".data, dom := "5".data,
    fechaInicio := "999999".data, fechaFin := "888888".data }

/-- Claim C8: a line splitting into fewer than 4 whitespace tokens is rejected
by `parse_line` (returns no record), regardless of the tokens' content. -/
theorem C8_short_line_returns_none (line : Tok) (h : (splitWs line).length < 4) :
    parseLine line = none := by
  simp [parseLine, parseTokens, h]

theorem C8_witness :
    (splitWs lineTooShort).length < 4 ∧ parseLine lineTooShort = none :=
  ⟨by decide, C8_short_line_returns_none lineTooShort (by decide)⟩

/-- Claim C9: a table row that is empty or has fewer than 10 cells is rejected
by `parse_table_row` before any cell normalization or day-window search. -/
theorem C9_short_row_returns_none (row : List Tok) (h : row.length < 10) :
    parseTableRow row = none := by
  simp [parseTableRow, h]

theorem C9_witness :
    (["A", "1", "MEX", "1030", "JFK", "1530", "1", "2", "3"].map String.data).length < 10 ∧
      parseTableRow (["A", "1", "MEX", "1030", "JFK", "1530", "1", "2", "3"].map String.data) = none :=
  ⟨by decide, C9_short_row_returns_none _ (by decide)⟩

/-- Claim C10: every record produced by `parse_line` or `parse_table_row`
carries exactly the 21 schema keys, in schema order, each mapped to a string
value (empty = absent). -/
theorem C10_schema_keys :
    (∀ line r, parseLine line = some r → r.toPairs.map Prod.fst = COLUMN_NAMES) ∧
      (∀ row r, parseTableRow row = some r → r.toPairs.map Prod.fst = COLUMN_NAMES) := by
  constructor <;> (intro _ r _; rfl)

theorem C10_witness :
    parseLine lineSepLong = some recSepLong ∧
      recSepLong.toPairs.map Prod.fst = COLUMN_NAMES :=
  ⟨by decide, C10_schema_keys.1 lineSepLong recSepLong (by decide)⟩

/-- Claim C3 counterexample: `parse_line "1MEX 10JFK"` returns no record (the
pre-expansion token count 2 fails the 4-token minimum) while
`parse_line "1 MEX 10 JFK"` returns a record, so the two parses are not equal. -/
theorem C3_counterexample :
    parseLine lineConcatShort = none ∧ parseLine lineSepShort = some recSepShort ∧
      parseLine lineConcatShort ≠ parseLine lineSepShort := by
  refine ⟨by decide, by decide, ?_⟩
  decide

/-- Claim C3 amended: concatenation-splitting is format-transparent once both
forms meet the 4-token minimum: appending the day codes `2 3` to both inputs,
the concatenated and the separated form parse to the same record. -/
theorem C3_amended_equal :
    parseLine lineConcatLong = parseLine lineSepLong ∧
      parseLine lineConcatLong = some recSepLong := by
  exact ⟨by decide, by decide⟩

theorem airportsThrough_eq (tokens : List Tok) (start i : Nat) {t : Tok} {rest : List Tok}
    (hsi : start ≤ i) (hdrop : tokens.drop i = t :: rest) :
    airportsThrough tokens start i
      = airportsBefore tokens start i + (if isAirport t || isConcat14 t then 1 else 0) := by
  unfold airportsThrough airportsBefore
  have hk : i + 1 - start = (i - start) + 1 := by omega
  have hget : (tokens.drop start)[i - start]? = some t := by
    rw [List.getElem?_drop]
    have hs : start + (i - start) = i := by omega
    rw [hs]
    have := List.getElem?_drop tokens i 0
    rw [hdrop] at this
    simpa using this.symm
  rw [hk, List.take_succ, hget]
  simp [List.countP_append, List.countP_cons, airportTok]

theorem fsbAux_eq_specAux (tokens : List Tok) (start : Nat) :
    ∀ (suffix : List Tok) (i count : Nat), start ≤ i → tokens.drop i = suffix →
      count = airportsBefore tokens start i →
      findSectionBoundaryAux start suffix i count = boundarySpecAux tokens start suffix i := by
  intro suffix
  induction suffix with
  | nil => intro i count _ _ _; rfl
  | cons t rest ih =>
    intro i count hsi hdrop hcount
    have hget : tokens[i]? = some t := by
      have := List.getElem?_drop tokens i 0
      rw [hdrop] at this
      simpa using this.symm
    have hgetD : tokens.getD i [] = t := by
      rw [List.getD_eq_getElem?_getD, hget]
      rfl
    have hdrop1 : tokens.drop (i + 1) = rest := by
      have h1 : tokens.drop (i + 1) = (tokens.drop i).drop 1 := by
        rw [List.drop_drop]
      rw [h1, hdrop]
      rfl
    have hthrough := airportsThrough_eq tokens start i hsi hdrop
    have hc' : (if isAirport t || isConcat14 t then count + 1 else count)
        = airportsThrough tokens start i := by
      rw [hthrough, hcount]
      by_cases h : (isAirport t || isConcat14 t) = true <;> simp [h]
    have hbefore1 : airportsBefore tokens start (i + 1) = airportsThrough tokens start i := by
      unfold airportsBefore airportsThrough
      rfl
    have hih := ih (i + 1) (if isAirport t || isConcat14 t then count + 1 else count)
      (by omega) hdrop1 (by rw [hc', hbefore1])
    have hcond : boundaryCondAmended tokens start i =
        ((isFrequency t && decide (2 ≤ airportsThrough tokens start i) &&
          (decide (i = start) || decide (2 ≤ freqRunCount (t :: rest)))) ||
         (isDate t && decide (2 ≤ airportsThrough tokens start i))) := by
      rw [boundaryCondAmended]
      simp only [hgetD, hdrop]
      by_cases hstart : i = start
      · have hc0 : count = 0 := by
          rw [hcount, hstart]
          unfold airportsBefore
          simp
        have hle1 : airportsThrough tokens start i ≤ 1 := by
          rw [← hc', hc0]
          by_cases h : (isAirport t || isConcat14 t) = true <;> simp [h]
        have h2f : decide (2 ≤ airportsThrough tokens start i) = false :=
          decide_eq_false (by omega)
        simp [h2f]
      · simp [hstart]
    rw [hc'] at hih
    rw [findSectionBoundaryAux, boundarySpecAux, hcond, hc']
    by_cases hA : (isFrequency t && decide (2 ≤ airportsThrough tokens start i) &&
        (decide (i = start) || decide (2 ≤ freqRunCount (t :: rest)))) = true
    · simp [hA]
    · by_cases hB : (isDate t && decide (2 ≤ airportsThrough tokens start i)) = true
      · simp [hA, hB]
      · simp [hA, hB, hih]

/-- Claim C4 (amended): for every token list and start index,
`_find_section_boundary` returns the first index `i ≥ start` at which either
(a) `tokens[i]` is a frequency code, at least two airports (plain or
digits+3-letters concatenated) occur at indices from `start` through `i`, and
the contiguous run of frequency-or-date tokens starting at `tokens[i]`
contains at least two frequency codes (`tokens[i]` itself included), or (b)
`tokens[i]` is a six-digit date and at least two such airports occur at
indices from `start` through `i`; if neither condition ever holds it returns
the length of the token list. -/
theorem C4_amended_boundary (tokens : List Tok) (start : Nat) :
    findSectionBoundary tokens start = boundarySpec tokens start := by
  unfold findSectionBoundary boundarySpec
  by_cases h : tokens.length ≤ start
  · simp [h]
  · rw [if_neg h, if_neg h]
    refine fsbAux_eq_specAux tokens start (tokens.drop start) start 0 (Nat.le_refl start) rfl ?_
    unfold airportsBefore
    simp

/-- Claim C4 counterexample: on the token list `["MEX","JFK","2","3"]` with
start index 0, the code commits to index 2 (the run `"2" "3"` holds two
frequency codes, counting `tokens[2]` itself), while the claim's reading —
at least two more frequency-or-date tokens strictly after `tokens[i]` — never
fires, so the boundary the claim describes is the list length 4. -/
theorem C4_counterexample :
    findSectionBoundary demoBoundaryToks 0 = 2 ∧ boundaryClaim demoBoundaryToks 0 = 4 ∧
      boundaryCondClaim demoBoundaryToks 0 2 = false := by
  exact ⟨by decide, by decide, by decide⟩

/-- Claim C7 counterexample: a text that contains the quoted footer, preceded
by an earlier footer-format occurrence, yields the earlier occurrence's
metadata (`re.search` takes the first match), not the claimed values. -/
theorem C7_counterexample :
    containsTok doubleFooterText footerText = true ∧
      (extractMetadata doubleFooterText).codigoEmision = "01/25".data ∧
      extractMetadata doubleFooterText ≠ metaClaimed := by
  exact ⟨by decide, by decide, by decide⟩

/-- Claim C7 (amended): `extract_metadata` applied to the footer text itself
(any text whose first footer-pattern match is this footer) returns
`codigoEmision="02/26"`, `vigenciaInicio="26-ENE-2026"`,
`vigenciaFin="22-FEB-2026"`, `fechaEmision="26-ENE-2026"`. -/
theorem C7_amended_footer_metadata : extractMetadata footerText = metaClaimed := by
  decide

theorem setDayIdx_vo (r : FlightRecord) (i : Nat) (c : Tok) : (setDayIdx r i c).vo = r.vo := by
  unfold setDayIdx
  split_ifs <;> rfl

theorem setDayIdx_fechas (r : FlightRecord) (i : Nat) (c : Tok) :
    (setDayIdx r i c).fechas = r.fechas := by
  unfold setDayIdx
  split_ifs <;> rfl

theorem writeDays7_vo (codes : List Tok) (r : FlightRecord) (i : Nat) :
    (writeDays7 r i codes).vo = r.vo := by
  induction codes generalizing r i with
  | nil => rfl
  | cons c cs ih =>
    rw [writeDays7, ih]
    split
    · rw [setDayIdx_vo]
    · rfl

theorem writeDays7_fechas (codes : List Tok) (r : FlightRecord) (i : Nat) :
    (writeDays7 r i codes).fechas = r.fechas := by
  induction codes generalizing r i with
  | nil => rfl
  | cons c cs ih =>
    rw [writeDays7, ih]
    split
    · rw [setDayIdx_fechas]
    · rfl

theorem writeDaysAligned_vo (codes : List Tok) (r : FlightRecord) (d : Int) :
    (writeDaysAligned r d codes).vo = r.vo := by
  induction codes generalizing r d with
  | nil => rfl
  | cons c cs ih =>
    rw [writeDaysAligned, ih]
    split
    · rw [setDayIdx_vo]
    · rfl

theorem writeDaysAligned_fechas (codes : List Tok) (r : FlightRecord) (d : Int) :
    (writeDaysAligned r d codes).fechas = r.fechas := by
  induction codes generalizing r d with
  | nil => rfl
  | cons c cs ih =>
    rw [writeDaysAligned, ih]
    split
    · rw [setDayIdx_fechas]
    · rfl

theorem assignDays_vo (r : FlightRecord) (codes : List Tok) : (assignDays r codes).vo = r.vo := by
  unfold assignDays
  split_ifs
  · rw [writeDays7_vo]
  · rw [writeDaysAligned_vo]
  · rfl

theorem assignDays_fechas (r : FlightRecord) (codes : List Tok) :
    (assignDays r codes).fechas = r.fechas := by
  unfold assignDays
  split_ifs
  · rw [writeDays7_fechas]
  · rw [writeDaysAligned_fechas]
  · rfl

theorem assignDates_vo (r : FlightRecord) (dates : List Tok) :
    (assignDates r dates).vo = r.vo := by
  match dates with
  | [] => rfl
  | [d1] => rfl
  | d1 :: d2 :: _ => rfl

theorem assignDates_days (r : FlightRecord) (dates : List Tok) :
    (assignDates r dates).days = r.days := by
  match dates with
  | [] => rfl
  | [d1] => rfl
  | d1 :: d2 :: _ => rfl

theorem singleSegFix_vo (r : FlightRecord) (n : Nat) (remaining : List Tok) :
    (singleSegFix r n remaining).vo = r.vo := by
  unfold singleSegFix
  split_ifs with h
  · split <;> [split_ifs <;> rfl; rfl]
  · rfl

theorem singleSegFix_fechas (r : FlightRecord) (n : Nat) (remaining : List Tok) :
    (singleSegFix r n remaining).fechas = r.fechas := by
  unfold singleSegFix
  split_ifs with h
  · split <;> [split_ifs <;> rfl; rfl]
  · rfl

theorem singleSegFix_days (r : FlightRecord) (n : Nat) (remaining : List Tok) :
    (singleSegFix r n remaining).days = r.days := by
  unfold singleSegFix
  split_ifs with h
  · split <;> [split_ifs <;> rfl; rfl]
  · rfl

theorem assignSegs_vuelo (r : FlightRecord) (segs : List (Tok × List Tok)) :
    (assignSegs r segs).vuelo = r.vuelo := by
  unfold assignSegs
  split
  · rfl
  · (repeat' split) <;> rfl

theorem assignSegs_fechas (r : FlightRecord) (segs : List (Tok × List Tok)) :
    (assignSegs r segs).fechas = r.fechas := by
  unfold assignSegs
  split
  · rfl
  · (repeat' split) <;> rfl

theorem assignSegs_days (r : FlightRecord) (segs : List (Tok × List Tok)) :
    (assignSegs r segs).days = r.days := by
  unfold assignSegs
  split
  · rfl
  · (repeat' split) <;> rfl

theorem assignSegs_origen_head (r : FlightRecord) (a : Tok) (t : List Tok)
    (rest : List (Tok × List Tok)) :
    (assignSegs r ((a, t) :: rest)).origen = a := by
  unfold assignSegs
  (repeat' split) <;> simp_all

theorem writeTableDays_fechas (codes : List Tok) (r : FlightRecord) (i : Nat) :
    (writeTableDays r i codes).fechas = r.fechas := by
  induction codes generalizing r i with
  | nil => rfl
  | cons c cs ih =>
    rw [writeTableDays, ih]
    split
    · rw [setDayIdx_fechas]
    · rfl

theorem upper_not_digit {c : Char} (h : isUpperC c = true) : isDigitC c = false := by
  unfold isUpperC at h
  unfold isDigitC
  simp only [Bool.and_eq_true, decide_eq_true_eq] at h
  simp only [Bool.and_eq_false_iff, decide_eq_false_iff_not]
  omega

theorem airport_shape {t : Tok} (h : isAirport t = true) :
    ∃ a b c, t = [a, b, c] ∧ isUpperC a = true ∧ isUpperC b = true ∧ isUpperC c = true := by
  unfold isAirport at h
  simp only [Bool.and_eq_true, decide_eq_true_eq, List.all_eq_true] at h
  obtain ⟨hl, hall⟩ := h
  match t, hl with
  | [a, b, c], _ =>
    exact ⟨a, b, c, rfl, hall a (by simp), hall b (by simp), hall c (by simp)⟩

theorem airport_not_frequency {t : Tok} (h : isAirport t = true) : isFrequency t = false := by
  obtain ⟨a, b, c, rfl, -, -, -⟩ := airport_shape h
  simp [isFrequency]

theorem airport_not_date {t : Tok} (h : isAirport t = true) : isDate t = false := by
  obtain ⟨a, b, c, rfl, -, -, -⟩ := airport_shape h
  simp [isDate]

theorem airport_concatSplit14 {t : Tok} (h : isAirport t = true) : concatSplit14 t = none := by
  obtain ⟨a, b, c, rfl, ha, -, -⟩ := airport_shape h
  unfold concatSplit14
  rw [List.takeWhile_cons_of_neg (by simp [upper_not_digit ha])]
  simp

theorem fsbAux_ge (start : Nat) (suffix : List Tok) :
    ∀ i count, i ≤ findSectionBoundaryAux start suffix i count := by
  induction suffix with
  | nil => intro i count; exact Nat.le_refl i
  | cons t rest ih =>
    intro i count
    rw [findSectionBoundaryAux]
    split
    all_goals split
    any_goals exact Nat.le_refl i
    all_goals split
    any_goals exact Nat.le_refl i
    all_goals exact Nat.le_trans (Nat.le_succ i) (ih (i + 1) _)

theorem boundary_pos {t : Tok} (ts : List Tok) (hf : isFrequency t = false)
    (hd : isDate t = false) : 1 ≤ findSectionBoundary (t :: ts) 0 := by
  unfold findSectionBoundary
  rw [if_neg (by simp)]
  show 1 ≤ findSectionBoundaryAux 0 (t :: ts) 0 0
  rw [findSectionBoundaryAux]
  rw [if_neg (by simp [hf]), if_neg (by simp [hd])]
  exact fsbAux_ge 0 ts 1 _

theorem expandTokens_cons_none {t : Tok} (l : List Tok) (h : concatSplit14 t = none) :
    expandTokens (t :: l) = t :: expandTokens l := by
  rw [expandTokens, h]

theorem collectSegments_cons_airport {t : Tok} (l : List Tok) (h : isAirport t = true) :
    collectSegments (t :: l)
      = (t, l.takeWhile isTime) :: collectSegmentsF l.length (l.dropWhile isTime) := by
  unfold collectSegments
  show collectSegmentsF (l.length + 1) (t :: l) = _
  rw [collectSegmentsF, if_pos h]

theorem assignDays_fechaInicio (r : FlightRecord) (codes : List Tok) :
    (assignDays r codes).fechaInicio = r.fechaInicio :=
  congrArg Prod.fst (assignDays_fechas r codes)

theorem assignDays_fechaFin (r : FlightRecord) (codes : List Tok) :
    (assignDays r codes).fechaFin = r.fechaFin :=
  congrArg Prod.snd (assignDays_fechas r codes)

theorem singleSegFix_fechaInicio (r : FlightRecord) (n : Nat) (remaining : List Tok) :
    (singleSegFix r n remaining).fechaInicio = r.fechaInicio :=
  congrArg Prod.fst (singleSegFix_fechas r n remaining)

theorem singleSegFix_fechaFin (r : FlightRecord) (n : Nat) (remaining : List Tok) :
    (singleSegFix r n remaining).fechaFin = r.fechaFin :=
  congrArg Prod.snd (singleSegFix_fechas r n remaining)

theorem assignSegs_fechaInicio (r : FlightRecord) (segs : List (Tok × List Tok)) :
    (assignSegs r segs).fechaInicio = r.fechaInicio :=
  congrArg Prod.fst (assignSegs_fechas r segs)

theorem assignSegs_fechaFin (r : FlightRecord) (segs : List (Tok × List Tok)) :
    (assignSegs r segs).fechaFin = r.fechaFin :=
  congrArg Prod.snd (assignSegs_fechas r segs)

theorem assignDates_vuelo (r : FlightRecord) (dates : List Tok) :
    (assignDates r dates).vuelo = r.vuelo :=
  congrArg Prod.fst (assignDates_vo r dates)

theorem assignDates_origen (r : FlightRecord) (dates : List Tok) :
    (assignDates r dates).origen = r.origen :=
  congrArg Prod.snd (assignDates_vo r dates)

theorem assignDays_vuelo (r : FlightRecord) (codes : List Tok) :
    (assignDays r codes).vuelo = r.vuelo :=
  congrArg Prod.fst (assignDays_vo r codes)

theorem assignDays_origen (r : FlightRecord) (codes : List Tok) :
    (assignDays r codes).origen = r.origen :=
  congrArg Prod.snd (assignDays_vo r codes)

theorem singleSegFix_vuelo (r : FlightRecord) (n : Nat) (remaining : List Tok) :
    (singleSegFix r n remaining).vuelo = r.vuelo :=
  congrArg Prod.fst (singleSegFix_vo r n remaining)

theorem singleSegFix_origen (r : FlightRecord) (n : Nat) (remaining : List Tok) :
    (singleSegFix r n remaining).origen = r.origen :=
  congrArg Prod.snd (singleSegFix_vo r n remaining)

theorem buildRecord_vuelo (st v : Tok) (suff : List Tok) : (buildRecord st v suff).vuelo = v := by
  unfold buildRecord
  rw [assignDates_vuelo, assignDays_vuelo, singleSegFix_vuelo, assignSegs_vuelo]

theorem buildRecord_origen {abc : Tok} (st v : Tok) (ts : List Tok) (h : isAirport abc = true) :
    (buildRecord st v (abc :: ts)).origen = abc := by
  unfold buildRecord
  rw [assignDates_origen, assignDays_origen, singleSegFix_origen]
  obtain ⟨b', hb⟩ : ∃ b', findSectionBoundary (abc :: ts) 0 = b' + 1 := by
    have := boundary_pos ts (airport_not_frequency h) (airport_not_date h)
    exact ⟨findSectionBoundary (abc :: ts) 0 - 1, by omega⟩
  rw [hb]
  rw [List.take_succ_cons, expandTokens_cons_none _ (airport_concatSplit14 h),
    collectSegments_cons_airport _ h, assignSegs_origen_head]

theorem assignDates_shape (r : FlightRecord) (l : List Tok)
    (hI : r.fechaInicio = []) (hF : r.fechaFin = []) :
    ((assignDates r (l.filter isDate)).fechaInicio = [] ∨
        isDate (assignDates r (l.filter isDate)).fechaInicio = true) ∧
      ((assignDates r (l.filter isDate)).fechaFin = [] ∨
        isDate (assignDates r (l.filter isDate)).fechaFin = true) := by
  match hd : l.filter isDate with
  | [] => exact ⟨Or.inl hI, Or.inl hF⟩
  | [d1] =>
    have hd1 : isDate d1 = true :=
      List.of_mem_filter (p := isDate) (l := l) (by rw [hd]; exact List.mem_cons_self _ _)
    exact ⟨Or.inr hd1, Or.inl hF⟩
  | d1 :: d2 :: rest =>
    have hd1 : isDate d1 = true :=
      List.of_mem_filter (p := isDate) (l := l) (by rw [hd]; exact List.mem_cons_self _ _)
    have hd2 : isDate d2 = true :=
      List.of_mem_filter (p := isDate) (l := l)
        (by rw [hd]; exact List.mem_cons_of_mem _ (List.mem_cons_self _ _))
    exact ⟨Or.inr hd1, Or.inr hd2⟩

theorem buildRecord_fechas_shape (st v : Tok) (suff : List Tok) :
    ((buildRecord st v suff).fechaInicio = [] ∨ isDate (buildRecord st v suff).fechaInicio = true) ∧
      ((buildRecord st v suff).fechaFin = [] ∨ isDate (buildRecord st v suff).fechaFin = true) := by
  unfold buildRecord
  apply assignDates_shape
  · rw [assignDays_fechaInicio, singleSegFix_fechaInicio, assignSegs_fechaInicio]
  · rw [assignDays_fechaFin, singleSegFix_fechaFin, assignSegs_fechaFin]

theorem writeTableDays_fechaInicio (codes : List Tok) (r : FlightRecord) (i : Nat) :
    (writeTableDays r i codes).fechaInicio = r.fechaInicio :=
  congrArg Prod.fst (writeTableDays_fechas codes r i)

theorem writeTableDays_fechaFin (codes : List Tok) (r : FlightRecord) (i : Nat) :
    (writeTableDays r i codes).fechaFin = r.fechaFin :=
  congrArg Prod.snd (writeTableDays_fechas codes r i)

theorem tableDates_shape (r : FlightRecord) (row : List Tok) (ds : Nat)
    (hI : r.fechaInicio = []) (hF : r.fechaFin = []) :
    ((tableDates r row ds).fechaInicio = [] ∨
        ((tableDates r row ds).fechaInicio.length = 6 ∧
          (tableDates r row ds).fechaInicio.all isDigitC = true)) ∧
      ((tableDates r row ds).fechaFin = [] ∨
        ((tableDates r row ds).fechaFin.length = 6 ∧
          (tableDates r row ds).fechaFin.all isDigitC = true)) := by
  unfold tableDates
  dsimp only
  split_ifs <;> simp_all

theorem parseLine_dest {line : Tok} {r : FlightRecord} (h : parseLine line = some r) :
    ∃ st v suff, preamble (splitWs line) = some (st, v, suff) ∧ r = buildRecord st v suff := by
  unfold parseLine parseTokens at h
  split at h
  · exact Option.noConfusion h
  · rw [Option.map_eq_some'] at h
    obtain ⟨⟨st, v, suff⟩, hp, hb⟩ := h
    exact ⟨st, v, suff, hp, hb.symm⟩

theorem tableFlightFields_fechaInicio (st v o : Tok) (segs : List Tok) :
    (tableFlightFields st v o segs).fechaInicio = [] := rfl

theorem tableFlightFields_fechaFin (st v o : Tok) (segs : List Tok) :
    (tableFlightFields st v o segs).fechaFin = [] := rfl

theorem parseTableRowCore_shape {row : List Tok} {ds : Nat} {r : FlightRecord}
    (h : parseTableRowCore row ds = some r) :
    r.vuelo ≠ [] ∧ r.origen ≠ [] ∧
      (r.fechaInicio = [] ∨ (r.fechaInicio.length = 6 ∧ r.fechaInicio.all isDigitC = true)) ∧
      (r.fechaFin = [] ∨ (r.fechaFin.length = 6 ∧ r.fechaFin.all isDigitC = true)) := by
  unfold parseTableRowCore at h
  dsimp only at h
  split at h
  · exact Option.noConfusion h
  · split at h
    case _ hcond =>
      rw [Option.some_inj] at h
      subst h
      rw [Bool.and_eq_true] at hcond
      refine ⟨by simpa using hcond.1, by simpa using hcond.2, ?_⟩
      exact tableDates_shape _ _ _
        (by rw [writeTableDays_fechaInicio, tableFlightFields_fechaInicio])
        (by rw [writeTableDays_fechaFin, tableFlightFields_fechaFin])
    · exact Option.noConfusion h

theorem parseTableRow_shape {row : List Tok} {r : FlightRecord} (h : parseTableRow row = some r) :
    r.vuelo ≠ [] ∧ r.origen ≠ [] ∧
      (r.fechaInicio = [] ∨ (r.fechaInicio.length = 6 ∧ r.fechaInicio.all isDigitC = true)) ∧
      (r.fechaFin = [] ∨ (r.fechaFin.length = 6 ∧ r.fechaFin.all isDigitC = true)) := by
  unfold parseTableRow at h
  split at h
  · exact Option.noConfusion h
  · dsimp only at h
    split at h
    · exact Option.noConfusion h
    · exact parseTableRowCore_shape h

/-- Claim C6 counterexample: `parse_table_row` accepts `999999` (month 99) as
`fechaInicio` because that path only checks for six digits. -/
theorem C6_counterexample :
    parseTableRow rowDemo = some recRowDemo ∧ recRowDemo.fechaInicio ≠ [] ∧
      isDate recRowDemo.fechaInicio = false := by
  exact ⟨by decide, by decide, by decide⟩

/-- Claim C6 (amended): a non-empty `fechaInicio`/`fechaFin` in a `parse_line`
record is a valid six-digit date (digits, month 1-12 at positions 3-4, day
1-31 at positions 5-6); in a `parse_table_row` record it is exactly six
decimal digits, the month/day bounds not being enforced on that path. -/
theorem C6_amended_dates :
    (∀ line r, parseLine line = some r →
        (r.fechaInicio = [] ∨ isDate r.fechaInicio = true) ∧
          (r.fechaFin = [] ∨ isDate r.fechaFin = true)) ∧
      (∀ row r, parseTableRow row = some r →
        (r.fechaInicio = [] ∨ (r.fechaInicio.length = 6 ∧ r.fechaInicio.all isDigitC = true)) ∧
          (r.fechaFin = [] ∨ (r.fechaFin.length = 6 ∧ r.fechaFin.all isDigitC = true))) := by
  constructor
  · intro line r h
    obtain ⟨st, v, suff, -, rfl⟩ := parseLine_dest h
    exact buildRecord_fechas_shape st v suff
  · intro row r h
    obtain ⟨-, -, hshape⟩ := parseTableRow_shape h
    exact hshape

/-- Witness for C6: concrete line and row instances of the amended claim. -/
theorem C6_witness :
    parseLine lineSevenCodes = some recSevenCodes ∧
      (recSevenCodes.fechaInicio = [] ∨ isDate recSevenCodes.fechaInicio = true) ∧
      parseTableRow rowDemo = some recRowDemo ∧
      (recRowDemo.fechaInicio = [] ∨
        (recRowDemo.fechaInicio.length = 6 ∧ recRowDemo.fechaInicio.all isDigitC = true)) :=
  ⟨by decide, (C6_amended_dates.1 lineSevenCodes recSevenCodes (by decide)).1, by decide,
    (C6_amended_dates.2 rowDemo recRowDemo (by decide)).1⟩

theorem freq_nonempty {c : Tok} (h : isFrequency c = true) : c.isEmpty = false := by
  match c with
  | [] => simp [isFrequency] at h
  | [a] => rfl
  | a :: b :: rest => rfl

theorem freq_ne_dash {c : Tok} (h : isFrequency c = true) : (c != ['-']) = true := by
  match c with
  | [] => simp [isFrequency] at h
  | [a] =>
    simp only [isFrequency, Bool.and_eq_true, decide_eq_true_eq] at h
    have ha : a ≠ '-' := by
      intro e
      subst e
      revert h
      decide
    simp [ha]
  | a :: b :: rest =>
    simp [bne]

theorem assignDays_three (r : FlightRecord) (c1 c2 c3 : Tok) (h1 : isFrequency c1 = true)
    (h2 : isFrequency c2 = true) (h3 : isFrequency c3 = true) :
    assignDays r [c1, c2, c3] = { r with vie := c1, sab := c2, dom := c3 } := by
  unfold assignDays
  rw [if_neg (by simp), if_pos (by simp),
    show (7 : Int) - (([c1, c2, c3].length : Nat) : Int) = 4 by norm_num]
  rw [writeDaysAligned, if_pos (by simp [freq_nonempty h1, freq_ne_dash h1]),
    show (4 : Int) + 1 = 5 by norm_num]
  rw [writeDaysAligned, if_pos (by simp [freq_nonempty h2, freq_ne_dash h2]),
    show (5 : Int) + 1 = 6 by norm_num]
  rw [writeDaysAligned, if_pos (by simp [freq_nonempty h3, freq_ne_dash h3])]
  rw [writeDaysAligned]
  rw [show Int.toNat 4 = 4 from rfl, show Int.toNat 5 = 5 from rfl,
    show Int.toNat 6 = 6 from rfl]
  simp [setDayIdx]

theorem setDayIdx_days_congr {r r' : FlightRecord} (h : r.days = r'.days) (i : Nat) (c : Tok) :
    (setDayIdx r i c).days = (setDayIdx r' i c).days := by
  unfold FlightRecord.days at h
  simp only [List.cons.injEq, and_true] at h
  obtain ⟨h1, h2, h3, h4, h5, h6, h7⟩ := h
  unfold setDayIdx
  split_ifs <;> simp [FlightRecord.days, h1, h2, h3, h4, h5, h6, h7]

theorem writeDays7_days_congr (codes : List Tok) {r r' : FlightRecord} (h : r.days = r'.days)
    (i : Nat) : (writeDays7 r i codes).days = (writeDays7 r' i codes).days := by
  induction codes generalizing r r' i with
  | nil => exact h
  | cons c cs ih =>
    rw [writeDays7, writeDays7]
    apply ih
    split
    · exact setDayIdx_days_congr h i c
    · exact h

theorem writeDaysAligned_days_congr (codes : List Tok) {r r' : FlightRecord} (h : r.days = r'.days)
    (d : Int) : (writeDaysAligned r d codes).days = (writeDaysAligned r' d codes).days := by
  induction codes generalizing r r' d with
  | nil => exact h
  | cons c cs ih =>
    rw [writeDaysAligned, writeDaysAligned]
    apply ih
    split
    · exact setDayIdx_days_congr h _ c
    · exact h

theorem assignDays_days_congr {r r' : FlightRecord} (h : r.days = r'.days) (codes : List Tok) :
    (assignDays r codes).days = (assignDays r' codes).days := by
  unfold assignDays
  split_ifs
  · exact writeDays7_days_congr codes h 0
  · exact writeDaysAligned_days_congr codes h _
  · exact h

theorem buildRecord_days_congr (st v : Tok) (suff : List Tok) :
    (buildRecord st v suff).days
      = (assignDays emptyRecord
          (validCodes (dayWindow (suff.drop (findSectionBoundary suff 0))))).days := by
  unfold buildRecord
  rw [assignDates_days]
  apply assignDays_days_congr
  rw [singleSegFix_days, assignSegs_days]
  rfl

/-- Claim C2 (amended): the seven weekday fields of every record produced by
`parse_line` are assigned by the token-count strategy alone (right-alignment
over the collected day codes, starting from the empty record); the calibrated
ColumnPositions never affect them, the position-based routine being dead
code. -/
theorem C2_amended_token_count_only (line : Tok) (r : FlightRecord)
    (hp : parseLine line = some r) :
    r.days = (assignDays emptyRecord (lineDayCodes line)).days := by
  obtain ⟨st, v, suff, hpre, rfl⟩ := parseLine_dest hp
  have hlc : lineDayCodes line
      = validCodes (dayWindow (suff.drop (findSectionBoundary suff 0))) := by
    unfold lineDayCodes
    rw [hpre]
  rw [hlc]
  exact buildRecord_days_congr st v suff

/-- Claim C5: a line whose day/date region yields exactly 3 frequency-code
tokens gets them assigned, in order, to vie, sab and dom (indices 4, 5, 6),
with lun, mar, mie and jue left empty. -/
theorem C5_three_codes_right_aligned (line : Tok) (r : FlightRecord) (c1 c2 c3 : Tok)
    (hp : parseLine line = some r) (hc : lineDayCodes line = [c1, c2, c3]) :
    r.vie = c1 ∧ r.sab = c2 ∧ r.dom = c3 ∧
      r.lun = [] ∧ r.mar = [] ∧ r.mie = [] ∧ r.jue = [] := by
  obtain ⟨st, v, suff, hpre, rfl⟩ := parseLine_dest hp
  have hlc : lineDayCodes line
      = validCodes (dayWindow (suff.drop (findSectionBoundary suff 0))) := by
    unfold lineDayCodes
    rw [hpre]
  rw [hlc] at hc
  have hm1 : c1 ∈ validCodes (dayWindow (suff.drop (findSectionBoundary suff 0))) := by
    rw [hc]
    exact List.mem_cons_self _ _
  have hm2 : c2 ∈ validCodes (dayWindow (suff.drop (findSectionBoundary suff 0))) := by
    rw [hc]
    exact List.mem_cons_of_mem _ (List.mem_cons_self _ _)
  have hm3 : c3 ∈ validCodes (dayWindow (suff.drop (findSectionBoundary suff 0))) := by
    rw [hc]
    exact List.mem_cons_of_mem _ (List.mem_cons_of_mem _ (List.mem_cons_self _ _))
  unfold validCodes at hm1 hm2 hm3
  have hf1 : isFrequency c1 = true := List.of_mem_filter hm1
  have hf2 : isFrequency c2 = true := List.of_mem_filter hm2
  have hf3 : isFrequency c3 = true := List.of_mem_filter hm3
  have hdays : (buildRecord st v suff).days = [[], [], [], [], c1, c2, c3] := by
    rw [buildRecord_days_congr st v suff, hc, assignDays_three emptyRecord c1 c2 c3 hf1 hf2 hf3]
    rfl
  unfold FlightRecord.days at hdays
  simp only [List.cons.injEq, and_true] at hdays
  obtain ⟨e1, e2, e3, e4, e5, e6, e7⟩ := hdays
  exact ⟨e5, e6, e7, e1, e2, e3, e4⟩

/-- Claim C2 counterexample: in a document whose header calibrates the seven
day-column positions, a line whose position-based codes (3: under L, M, M)
match the token-based count (3) exactly — difference 0 ≤ 1 — still gets its
weekday fields from the token-count strategy (right-aligned to vie/sab/dom),
not from the position-based strategy (which would set lun/mar/mie):
`_assign_frequencies_by_position` is never invoked by `parse_line`. -/
theorem C2_counterexample :
    calibrateDayColumns (splitNl demoDoc) = some demoPositions ∧
      positionFoundCodes demoFlightLine demoPositions
        = [("lun", "2".data), ("mar", "3".data), ("mie", "4".data)] ∧
      lineDayCodes demoFlightLine = ["2".data, "3".data, "4".data] ∧
      assignFrequenciesByPosition demoFlightLine demoPositions (lineDayCodes demoFlightLine)
        = [("lun", "2".data), ("mar", "3".data), ("mie", "4".data)] ∧
      parseText demoDoc = [demoRec] ∧ demoRec.lun = [] := by
  exact ⟨by decide, by decide, by decide, by decide, by decide, by decide⟩

/-- Witness for C2: a concrete line instance of the amended claim. -/
theorem C2_amended_witness :
    parseLine lineSepLong = some recSepLong ∧
      recSepLong.days = (assignDays emptyRecord (lineDayCodes lineSepLong)).days :=
  ⟨by decide, C2_amended_token_count_only lineSepLong recSepLong (by decide)⟩

/-- Witness for C5: a concrete line with exactly three day codes. -/
theorem C5_witness :
    parseLine lineThreeCodes = some recThreeCodes ∧
      lineDayCodes lineThreeCodes = ["2".data, "3".data, "4".data] ∧
      recThreeCodes.vie = "2".data ∧ recThreeCodes.lun = [] := by
  have h := C5_three_codes_right_aligned lineThreeCodes recThreeCodes ("2".data) ("3".data)
    ("4".data) (by decide) (by decide)
  exact ⟨by decide, by decide, h.1, h.2.2.2.1⟩

theorem dropWhile_head_false {α} (p : α → Bool) (l : List α) {c : α} {cs : List α}
    (h : l.dropWhile p = c :: cs) : p c = false := by
  have hne : l.dropWhile p ≠ [] := by simp [h]
  have := List.head_dropWhile_not p l hne
  have hc : (l.dropWhile p).head hne = c := by simp [h]
  rwa [hc] at this

theorem splitWsAux_ws_skip (w : Tok) (hw : ∀ c ∈ w, isWsC c = true) (rest : Tok) :
    splitWsAux [] (w ++ rest) = splitWsAux [] rest := by
  induction w with
  | nil => rfl
  | cons c w' ih =>
    rw [List.cons_append, splitWsAux, if_pos (hw c (List.mem_cons_self _ _))]
    simp only [List.isEmpty_nil, if_pos]
    exact ih (fun x hx => hw x (List.mem_cons_of_mem _ hx))

theorem splitWsAux_token (t : Tok) (ht : ∀ c ∈ t, isWsC c = false) :
    ∀ (acc rest : Tok), splitWsAux acc (t ++ rest) = splitWsAux (t.reverse ++ acc) rest := by
  induction t with
  | nil => intro acc rest; rfl
  | cons c t' ih =>
    intro acc rest
    rw [List.cons_append, splitWsAux, if_neg (by simp [ht c (List.mem_cons_self _ _)])]
    rw [ih (fun x hx => ht x (List.mem_cons_of_mem _ hx))]
    simp

theorem splitWsAux_ws_end (acc : Tok) (w : Tok) (hw : ∀ c ∈ w, isWsC c = true) :
    splitWsAux acc w = if acc.isEmpty then [] else [acc.reverse] := by
  induction w generalizing acc with
  | nil => rfl
  | cons c w' ih =>
    rw [splitWsAux, if_pos (hw c (List.mem_cons_self _ _))]
    by_cases ha : acc.isEmpty
    · rw [if_pos ha, if_pos ha, ih [] (fun x hx => hw x (List.mem_cons_of_mem _ hx))]
      rfl
    · rw [if_neg ha, if_neg ha, ih [] (fun x hx => hw x (List.mem_cons_of_mem _ hx))]
      rfl

theorem splitWsAux_trailing (w : Tok) (hw : ∀ c ∈ w, isWsC c = true) :
    ∀ (l acc : Tok), splitWsAux acc (l ++ w) = splitWsAux acc l := by
  intro l
  induction l with
  | nil =>
    intro acc
    rw [List.nil_append, splitWsAux_ws_end acc w hw]
    rfl
  | cons c l' ih =>
    intro acc
    rw [List.cons_append, splitWsAux, splitWsAux]
    split
    · split
      · exact ih []
      · rw [ih []]
    · exact ih (c :: acc)

theorem splitWs_token_ws (t w rest : Tok) (ht0 : t ≠ []) (ht : ∀ c ∈ t, isWsC c = false)
    (hw0 : w ≠ []) (hw : ∀ c ∈ w, isWsC c = true) :
    splitWs (t ++ w ++ rest) = t :: splitWs rest := by
  unfold splitWs
  rw [List.append_assoc, splitWsAux_token t ht [] (w ++ rest)]
  match w, hw0 with
  | wc :: w', _ =>
    rw [List.cons_append, splitWsAux, if_pos (hw wc (List.mem_cons_self _ _))]
    rw [if_neg (by simp [ht0]), List.append_nil, List.reverse_reverse]
    rw [splitWsAux_ws_skip w' (fun x hx => hw x (List.mem_cons_of_mem _ hx)) rest]

theorem splitWs_strip (cs : Tok) : splitWs (stripTok cs) = splitWs cs := by
  unfold stripTok
  have h1 : cs = cs.takeWhile isWsC ++ cs.dropWhile isWsC :=
    (List.takeWhile_append_dropWhile isWsC cs).symm
  have h2 : cs.dropWhile isWsC
      = ((cs.dropWhile isWsC).reverse.dropWhile isWsC).reverse
        ++ ((cs.dropWhile isWsC).reverse.takeWhile isWsC).reverse := by
    conv_lhs => rw [← List.reverse_reverse (cs.dropWhile isWsC)]
    rw [← List.reverse_append]
    rw [List.takeWhile_append_dropWhile isWsC ((cs.dropWhile isWsC).reverse)]
  conv_rhs => rw [h1]
  unfold splitWs
  rw [splitWsAux_ws_skip (cs.takeWhile isWsC) (fun c hc => List.mem_takeWhile_imp hc) _]
  conv_rhs => rw [h2]
  rw [splitWsAux_trailing ((cs.dropWhile isWsC).reverse.takeWhile isWsC).reverse
    (fun c hc => List.mem_takeWhile_imp (List.mem_reverse.mp hc))]

theorem digit_not_ws {c : Char} (h : isDigitC c = true) : isWsC c = false := by
  unfold isDigitC at h
  unfold isWsC
  simp only [Bool.and_eq_true, decide_eq_true_eq] at h
  simp only [Bool.or_eq_false_iff, decide_eq_false_iff_not]
  omega

theorem upper_not_ws {c : Char} (h : isUpperC c = true) : isWsC c = false := by
  unfold isUpperC at h
  unfold isWsC
  simp only [Bool.and_eq_true, decide_eq_true_eq] at h
  simp only [Bool.or_eq_false_iff, decide_eq_false_iff_not]
  omega

theorem status_char_cases {c : Char} (h : (c == 'A' || c == 'C' || c == '-') = true) :
    c = 'A' ∨ c = 'C' ∨ c = '-' := by
  simp only [Bool.or_eq_true, beq_iff_eq] at h
  tauto

theorem status_not_ws {c : Char} (h : (c == 'A' || c == 'C' || c == '-') = true) :
    isWsC c = false := by
  rcases status_char_cases h with rfl | rfl | rfl <;> decide

theorem status_not_digit {c : Char} (h : (c == 'A' || c == 'C' || c == '-') = true) :
    isDigitC c = false := by
  rcases status_char_cases h with rfl | rfl | rfl <;> decide

theorem digits_not_status {ds : Tok} (h0 : ds ≠ []) (hd : ds.all isDigitC = true) :
    (ds == ['A'] || ds == ['C'] || ds == ['-']) = false := by
  match ds, h0 with
  | a :: rest, _ =>
    simp only [List.all_cons, Bool.and_eq_true] at hd
    simp only [Bool.or_eq_false_iff, beq_eq_false_iff_ne, ne_eq]
    refine ⟨⟨?_, ?_⟩, ?_⟩ <;> intro e <;>
      (injection e with e1 e2; subst e1; exact absurd hd.1 (by decide))

theorem isNumTok_of (ds : Tok) (h0 : ds ≠ []) (hd : ds.all isDigitC = true) :
    isNumTok ds = true := by
  unfold isNumTok
  simp [h0, hd]

theorem parseTokens_origen_sep {ds abc : Tok} (ts : List Tok) (h0 : ds ≠ [])
    (hd : ds.all isDigitC = true) (habc : isAirport abc = true) :
    ∀ r, parseTokens (ds :: abc :: ts) = some r → r.origen = abc := by
  intro r h
  unfold parseTokens at h
  split at h
  · exact Option.noConfusion h
  · unfold preamble at h
    dsimp only at h
    rw [if_neg (by rw [digits_not_status h0 hd]; exact Bool.false_ne_true)] at h
    dsimp only at h
    rw [if_pos (isNumTok_of ds h0 hd)] at h
    rw [if_neg (by simp)] at h
    simp only [Option.map_some', Option.some_inj] at h
    subst h
    exact buildRecord_origen _ _ _ habc

theorem concat_not_status {ds abc : Tok} (h0 : ds ≠ []) (habc : isAirport abc = true) :
    ((ds ++ abc) == ['A'] || (ds ++ abc) == ['C'] || (ds ++ abc) == ['-']) = false := by
  obtain ⟨a, b, c, rfl, -, -, -⟩ := airport_shape habc
  have hlen : (ds ++ [a, b, c]).length ≠ 1 := by
    simp only [List.length_append, List.length_cons, List.length_nil]
    match ds, h0 with
    | x :: xs, _ => simp +arith
  simp only [Bool.or_eq_false_iff, beq_eq_false_iff_ne, ne_eq]
  refine ⟨⟨?_, ?_⟩, ?_⟩ <;> intro e <;> exact hlen (by rw [e]; rfl)

theorem concat_not_num {ds abc : Tok} (habc : isAirport abc = true) :
    isNumTok (ds ++ abc) = false := by
  obtain ⟨a, b, c, rfl, ha, -, -⟩ := airport_shape habc
  unfold isNumTok
  simp [upper_not_digit ha]

theorem concatSplitAny_concat {ds abc : Tok} (h0 : ds ≠ [])
    (hd : ds.all isDigitC = true) (habc : isAirport abc = true) :
    concatSplitAny (ds ++ abc) = some (ds, abc) := by
  obtain ⟨a, b, c, hab, ha, -, -⟩ := airport_shape habc
  unfold concatSplitAny
  rw [List.takeWhile_append_of_pos (by simpa [List.all_eq_true] using hd),
    List.dropWhile_append_of_pos (by simpa [List.all_eq_true] using hd)]
  rw [hab, List.takeWhile_cons_of_neg (by simp [upper_not_digit ha]),
    List.dropWhile_cons_of_neg (by simp [upper_not_digit ha]), ← hab]
  simp [h0, habc]

theorem parseTokens_origen_concat {ds abc : Tok} (ts : List Tok) (h0 : ds ≠ [])
    (hd : ds.all isDigitC = true) (habc : isAirport abc = true) :
    ∀ r, parseTokens ((ds ++ abc) :: ts) = some r → r.origen = abc := by
  intro r h
  unfold parseTokens at h
  split at h
  · exact Option.noConfusion h
  · unfold preamble at h
    dsimp only at h
    rw [if_neg (by rw [concat_not_status h0 habc]; exact Bool.false_ne_true)] at h
    dsimp only at h
    rw [if_neg (by rw [concat_not_num habc]; exact Bool.false_ne_true)] at h
    rw [concatSplitAny_concat h0 hd habc] at h
    simp only [Option.map_some', Option.some_inj] at h
    subst h
    exact buildRecord_origen _ _ _ habc

theorem status_singleton_eq {c0 : Char} (hs : (c0 == 'A' || c0 == 'C' || c0 == '-') = true) :
    (([c0] : Tok) == ['A'] || ([c0] : Tok) == ['C'] || ([c0] : Tok) == ['-']) = true := by
  rcases status_char_cases hs with rfl | rfl | rfl <;> decide

theorem parseTokens_origen_status_sep {c0 : Char} {ds abc : Tok} (ts : List Tok)
    (hs : (c0 == 'A' || c0 == 'C' || c0 == '-') = true) (h0 : ds ≠ [])
    (hd : ds.all isDigitC = true) (habc : isAirport abc = true) :
    ∀ r, parseTokens ([c0] :: ds :: abc :: ts) = some r → r.origen = abc := by
  intro r h
  unfold parseTokens at h
  split at h
  · exact Option.noConfusion h
  · unfold preamble at h
    dsimp only at h
    rw [if_pos (status_singleton_eq hs)] at h
    dsimp only at h
    rw [if_pos (isNumTok_of ds h0 hd)] at h
    rw [if_neg (by simp)] at h
    simp only [Option.map_some', Option.some_inj] at h
    subst h
    exact buildRecord_origen _ _ _ habc

theorem parseTokens_origen_status_concat {c0 : Char} {ds abc : Tok} (ts : List Tok)
    (hs : (c0 == 'A' || c0 == 'C' || c0 == '-') = true) (h0 : ds ≠ [])
    (hd : ds.all isDigitC = true) (habc : isAirport abc = true) :
    ∀ r, parseTokens ([c0] :: (ds ++ abc) :: ts) = some r → r.origen = abc := by
  intro r h
  unfold parseTokens at h
  split at h
  · exact Option.noConfusion h
  · unfold preamble at h
    dsimp only at h
    rw [if_pos (status_singleton_eq hs)] at h
    dsimp only at h
    rw [if_neg (by rw [concat_not_num habc]; exact Bool.false_ne_true)] at h
    rw [concatSplitAny_concat h0 hd habc] at h
    simp only [Option.map_some', Option.some_inj] at h
    subst h
    exact buildRecord_origen _ _ _ habc

theorem parseTokens_status_digit_none {c0 d0 : Char} {u : Tok} (ts : List Tok)
    (hs : (c0 == 'A' || c0 == 'C' || c0 == '-') = true) (_hd0 : isDigitC d0 = true) :
    parseTokens ((c0 :: d0 :: u) :: ts) = none := by
  unfold parseTokens
  split
  · rfl
  · unfold preamble
    dsimp only
    rw [if_neg ?hstat]
    case hstat =>
      have hne : ∀ x : Char, (c0 :: d0 :: u : Tok) ≠ [x] := by
        intro x e
        have := congrArg List.length e
        simp at this
      simp only [Bool.or_eq_true, beq_iff_eq]
      rintro ((e | e) | e) <;> exact hne _ e
    dsimp only
    rw [if_neg ?hnum]
    case hnum =>
      unfold isNumTok
      have : isDigitC c0 = false := status_not_digit hs
      simp [this]
    have hcs : concatSplitAny (c0 :: d0 :: u) = none := by
      unfold concatSplitAny
      rw [List.takeWhile_cons_of_neg (by simp [status_not_digit hs])]
      simp
    rw [hcs]
    rfl

theorem matchFlightTail_decomp {s2 : Tok} (h : matchFlightTail s2 = true) :
    ∃ w1 ds w2 a b c wch tail,
      s2 = w1 ++ ds ++ w2 ++ [a, b, c] ++ wch :: tail ∧
      (∀ x ∈ w1, isWsC x = true) ∧ ds ≠ [] ∧ ds.all isDigitC = true ∧
      (∀ x ∈ w2, isWsC x = true) ∧
      isUpperC a = true ∧ isUpperC b = true ∧ isUpperC c = true ∧ isWsC wch = true := by
  unfold matchFlightTail at h
  dsimp only at h
  split at h
  · exact Bool.noConfusion h
  case isFalse hds =>
    rcases heq5 : ((s2.dropWhile isWsC).dropWhile isDigitC).dropWhile isWsC with _ | ⟨a, t1⟩
    · rw [heq5] at h
      exact Bool.noConfusion h
    · rw [heq5] at h
      rcases t1 with _ | ⟨b, t2⟩
      · exact Bool.noConfusion h
      rcases t2 with _ | ⟨c, rest⟩
      · exact Bool.noConfusion h
      dsimp only at h
      by_cases hup : (isUpperC a && isUpperC b && isUpperC c) = true
      swap
      · rw [if_neg hup] at h
        exact Bool.noConfusion h
      rw [if_pos hup] at h
      rcases rest with _ | ⟨wch, rest2⟩
      · exact Bool.noConfusion h
      dsimp only at h
      by_cases hwch : isWsC wch = true
      swap
      · rw [if_neg hwch] at h
        exact Bool.noConfusion h
      simp only [Bool.and_eq_true] at hup
      refine ⟨(s2.takeWhile isWsC),
        ((s2.dropWhile isWsC).takeWhile isDigitC),
        (((s2.dropWhile isWsC).dropWhile isDigitC).takeWhile isWsC),
        a, b, c, wch, rest2, ?_, ?_, ?_, ?_, ?_, hup.1.1, hup.1.2, hup.2, hwch⟩
      · have e1 : s2.dropWhile isWsC
            = (s2.dropWhile isWsC).takeWhile isDigitC
              ++ ((s2.dropWhile isWsC).dropWhile isDigitC) :=
          (List.takeWhile_append_dropWhile _ _).symm
        have e2 : (s2.dropWhile isWsC).dropWhile isDigitC
            = ((s2.dropWhile isWsC).dropWhile isDigitC).takeWhile isWsC
              ++ (a :: b :: c :: wch :: rest2) := by
          conv_lhs =>
            rw [← List.takeWhile_append_dropWhile isWsC
              ((s2.dropWhile isWsC).dropWhile isDigitC)]
          rw [heq5]
        conv_lhs => rw [← List.takeWhile_append_dropWhile isWsC s2]
        conv_lhs => rw [e1]
        conv_lhs => rw [e2]
        simp [List.append_assoc]
      · exact fun x hx => List.mem_takeWhile_imp hx
      · simpa using hds
      · rw [List.all_eq_true]
        exact fun x hx => List.mem_takeWhile_imp hx
      · exact fun x hx => List.mem_takeWhile_imp hx

theorem splitWs_one_token (t : Tok) (wch : Char) (tail : Tok) (ht0 : t ≠ [])
    (ht : ∀ c ∈ t, isWsC c = false) (hwch : isWsC wch = true) :
    splitWs (t ++ wch :: tail) = t :: splitWs tail := by
  rw [show t ++ wch :: tail = t ++ [wch] ++ tail by simp]
  exact splitWs_token_ws t [wch] tail ht0 ht (by simp) (by simpa using hwch)

theorem splitWs_two_tokens (t1 w t2 : Tok) (wch : Char) (tail : Tok) (ht10 : t1 ≠ [])
    (ht1 : ∀ c ∈ t1, isWsC c = false) (hw0 : w ≠ []) (hw : ∀ c ∈ w, isWsC c = true)
    (ht20 : t2 ≠ []) (ht2 : ∀ c ∈ t2, isWsC c = false) (hwch : isWsC wch = true) :
    splitWs (t1 ++ w ++ (t2 ++ wch :: tail)) = t1 :: t2 :: splitWs tail := by
  rw [splitWs_token_ws t1 w _ ht10 ht1 hw0 hw, splitWs_one_token t2 wch tail ht20 ht2 hwch]

theorem matchFlightStart_origen {s : Tok} (hm : matchFlightStart s = true) :
    ∀ r, parseTokens (splitWs s) = some r → r.origen ≠ [] := by
  intro r hp
  have hsplit0 : splitWs s = splitWs (s.dropWhile isWsC) := by
    conv_lhs => rw [← List.takeWhile_append_dropWhile isWsC s]
    exact splitWsAux_ws_skip _ (fun c hc => List.mem_takeWhile_imp hc) _
  unfold matchFlightStart at hm
  dsimp only at hm
  rw [hsplit0] at hp
  rcases hS1 : s.dropWhile isWsC with _ | ⟨c0, cs0⟩
  · rw [hS1] at hm
    exact absurd hm (by decide)
  rw [hS1] at hm hp
  dsimp only at hm
  have hc0ws : isWsC c0 = false := dropWhile_head_false _ _ hS1
  by_cases hst : (c0 == 'A' || c0 == 'C' || c0 == '-') = true
  · rw [if_pos hst] at hm
    obtain ⟨w1, ds, w2, a, b, c, wch, tail, heq, hw1, hds0, hdsall, hw2, ha, hb, hc, hwch⟩ :=
      matchFlightTail_decomp hm
    have hdsNws : ∀ x ∈ ds, isWsC x = false := by
      intro x hx
      rw [List.all_eq_true] at hdsall
      exact digit_not_ws (hdsall x hx)
    have habcAir : isAirport [a, b, c] = true := by simp [isAirport, ha, hb, hc]
    have habcNws : ∀ x ∈ ([a, b, c] : Tok), isWsC x = false := by
      intro x hx
      rcases (by simpa using hx : x = a ∨ x = b ∨ x = c) with rfl | rfl | rfl
      exacts [upper_not_ws ha, upper_not_ws hb, upper_not_ws hc]
    obtain ⟨d0, ds', rfl⟩ : ∃ d0 ds', ds = d0 :: ds' := by
      match ds, hds0 with
      | x :: xs, _ => exact ⟨x, xs, rfl⟩
    have hd0dig : isDigitC d0 = true := by
      rw [List.all_eq_true] at hdsall
      exact hdsall d0 (List.mem_cons_self _ _)
    rcases w1 with _ | ⟨wc1, w1'⟩
    · simp only [List.nil_append] at heq
      rcases w2 with _ | ⟨wc2, w2'⟩
      · have htok : splitWs (c0 :: cs0) = (c0 :: ((d0 :: ds') ++ [a, b, c])) :: splitWs tail := by
          rw [heq]
          rw [show c0 :: ((d0 :: ds') ++ [] ++ [a, b, c] ++ wch :: tail)
              = (c0 :: ((d0 :: ds') ++ [a, b, c])) ++ wch :: tail by simp]
          refine splitWs_one_token _ wch tail (by simp) ?_ hwch
          intro x hx
          rcases List.mem_cons.mp hx with rfl | hx2
          · exact status_not_ws hst
          rcases List.mem_append.mp hx2 with hx3 | hx3
          · exact hdsNws x hx3
          · exact habcNws x hx3
        rw [htok] at hp
        rw [show (c0 :: ((d0 :: ds') ++ [a, b, c])) = c0 :: d0 :: (ds' ++ [a, b, c]) by simp] at hp
        rw [parseTokens_status_digit_none _ hst hd0dig] at hp
        exact Option.noConfusion hp
      · have htok : splitWs (c0 :: cs0)
            = (c0 :: (d0 :: ds')) :: splitWs ([a, b, c] ++ wch :: tail) := by
          rw [heq]
          rw [show c0 :: ((d0 :: ds') ++ (wc2 :: w2') ++ [a, b, c] ++ wch :: tail)
              = (c0 :: (d0 :: ds')) ++ (wc2 :: w2') ++ ([a, b, c] ++ wch :: tail) by simp]
          refine splitWs_token_ws _ _ _ (by simp) ?_ (by simp) hw2
          intro x hx
          rcases List.mem_cons.mp hx with rfl | hx2
          · exact status_not_ws hst
          · exact hdsNws x hx2
        rw [htok] at hp
        rw [parseTokens_status_digit_none _ hst hd0dig] at hp
        exact Option.noConfusion hp
    · have htok1 : splitWs (c0 :: cs0)
          = [c0] :: splitWs ((d0 :: ds') ++ w2 ++ [a, b, c] ++ wch :: tail) := by
        rw [heq]
        rw [show c0 :: ((wc1 :: w1') ++ (d0 :: ds') ++ w2 ++ [a, b, c] ++ wch :: tail)
            = [c0] ++ (wc1 :: w1') ++ ((d0 :: ds') ++ w2 ++ [a, b, c] ++ wch :: tail) by simp]
        exact splitWs_token_ws [c0] (wc1 :: w1') _ (by simp)
          (by intro x hx; simp only [List.mem_singleton] at hx; subst hx; exact status_not_ws hst)
          (by simp) hw1
      rcases w2 with _ | ⟨wc2, w2'⟩
      · have htok2 : splitWs ((d0 :: ds') ++ [] ++ [a, b, c] ++ wch :: tail)
            = ((d0 :: ds') ++ [a, b, c]) :: splitWs tail := by
          rw [show (d0 :: ds') ++ [] ++ [a, b, c] ++ wch :: tail
              = ((d0 :: ds') ++ [a, b, c]) ++ wch :: tail by simp]
          refine splitWs_one_token _ wch tail (by simp) ?_ hwch
          intro x hx
          rcases List.mem_append.mp hx with hx2 | hx2
          · exact hdsNws x hx2
          · exact habcNws x hx2
        rw [htok1, htok2] at hp
        rw [parseTokens_origen_status_concat _ hst (by simp) hdsall habcAir r hp]
        simp
      · have htok2 : splitWs ((d0 :: ds') ++ (wc2 :: w2') ++ [a, b, c] ++ wch :: tail)
            = (d0 :: ds') :: [a, b, c] :: splitWs tail := by
          rw [show (d0 :: ds') ++ (wc2 :: w2') ++ [a, b, c] ++ wch :: tail
              = (d0 :: ds') ++ (wc2 :: w2') ++ ([a, b, c] ++ wch :: tail) by simp]
          exact splitWs_two_tokens _ _ _ wch tail (by simp) hdsNws (by simp) hw2
            (by simp) habcNws hwch
        rw [htok1, htok2] at hp
        rw [parseTokens_origen_status_sep _ hst (by simp) hdsall habcAir r hp]
        simp
  · rw [if_neg hst] at hm
    obtain ⟨w1, ds, w2, a, b, c, wch, tail, heq, hw1, hds0, hdsall, hw2, ha, hb, hc, hwch⟩ :=
      matchFlightTail_decomp hm
    have hdsNws : ∀ x ∈ ds, isWsC x = false := by
      intro x hx
      rw [List.all_eq_true] at hdsall
      exact digit_not_ws (hdsall x hx)
    have habcAir : isAirport [a, b, c] = true := by simp [isAirport, ha, hb, hc]
    have habcNws : ∀ x ∈ ([a, b, c] : Tok), isWsC x = false := by
      intro x hx
      rcases (by simpa using hx : x = a ∨ x = b ∨ x = c) with rfl | rfl | rfl
      exacts [upper_not_ws ha, upper_not_ws hb, upper_not_ws hc]
    rcases w1 with _ | ⟨wc1, w1'⟩
    swap
    · exfalso
      rw [show (wc1 :: w1') ++ ds ++ w2 ++ [a, b, c] ++ wch :: tail
          = wc1 :: (w1' ++ ds ++ w2 ++ [a, b, c] ++ wch :: tail) by simp] at heq
      injection heq with h1 h2
      subst h1
      rw [hw1 c0 (List.mem_cons_self _ _)] at hc0ws
      exact Bool.noConfusion hc0ws
    simp only [List.nil_append] at heq
    rcases w2 with _ | ⟨wc2, w2'⟩
    · have htok : splitWs (c0 :: cs0) = (ds ++ [a, b, c]) :: splitWs tail := by
        rw [heq]
        rw [show ds ++ [] ++ [a, b, c] ++ wch :: tail = (ds ++ [a, b, c]) ++ wch :: tail by simp]
        refine splitWs_one_token _ wch tail (by simp [hds0]) ?_ hwch
        intro x hx
        rcases List.mem_append.mp hx with hx2 | hx2
        · exact hdsNws x hx2
        · exact habcNws x hx2
      rw [htok] at hp
      rw [parseTokens_origen_concat _ hds0 hdsall habcAir r hp]
      simp
    · have htok : splitWs (c0 :: cs0) = ds :: [a, b, c] :: splitWs tail := by
        rw [heq]
        rw [show ds ++ (wc2 :: w2') ++ [a, b, c] ++ wch :: tail
            = ds ++ (wc2 :: w2') ++ ([a, b, c] ++ wch :: tail) by simp]
        exact splitWs_two_tokens _ _ _ wch tail hds0 hdsNws (by simp) hw2 (by simp) habcNws hwch
      rw [htok] at hp
      rw [parseTokens_origen_sep _ hds0 hdsall habcAir r hp]
      simp

/-- Claim C1: every flight record emitted by either parsing path (the
line-based parse_text or the table-row parse_table_row) has a non-empty
vuelo field and a non-empty origen (at least one recovered airport
segment). -/
theorem C1_output_records_vuelo_origen :
    (∀ text r, r ∈ parseText text → r.vuelo ≠ [] ∧ r.origen ≠ []) ∧
    (∀ row r, parseTableRow row = some r → r.vuelo ≠ [] ∧ r.origen ≠ []) := by
  constructor
  · intro text r hr
    unfold parseText at hr
    dsimp only at hr
    unfold parseTextLines at hr
    rw [List.mem_filterMap] at hr
    obtain ⟨line, _, heq⟩ := hr
    dsimp only at heq
    split at heq
    · exact Option.noConfusion heq
    split at heq
    · exact Option.noConfusion heq
    split at heq
    · exact Option.noConfusion heq
    split at heq
    case _ hm =>
      split at heq
      case _ r' hpl =>
        split at heq
        · exact Option.noConfusion heq
        case _ hv =>
          injection heq with hrr
          subst hrr
          have hvu : r'.vuelo ≠ [] := by simpa using hv
          refine ⟨hvu, ?_⟩
          unfold parseLine at hpl
          rw [← splitWs_strip] at hpl
          exact matchFlightStart_origen hm r' hpl
      case _ hpl => exact Option.noConfusion heq
    case _ hm => exact Option.noConfusion heq
  · intro row r h
    have hs := parseTableRow_shape h
    exact ⟨hs.1, hs.2.1⟩

theorem C1_witness :
    (recSepLong ∈ parseText lineSepLong ∧ recSepLong.vuelo ≠ [] ∧ recSepLong.origen ≠ []) ∧
    (parseTableRow rowDemo = some recRowDemo ∧ recRowDemo.vuelo ≠ [] ∧ recRowDemo.origen ≠ []) := by
  have hmem : recSepLong ∈ parseText lineSepLong := by decide
  have htab : parseTableRow rowDemo = some recRowDemo := by decide
  exact ⟨⟨hmem, C1_output_records_vuelo_origen.1 _ _ hmem⟩,
    ⟨htab, C1_output_records_vuelo_origen.2 _ _ htab⟩⟩
